import Mathlib

/-!
# clockclock24 replica, master firmware

A shallow embedding of the master's clock manager (`clock_manger.cpp`), of the
stop/animation glue in `main.cpp` and of the non-blocking time synchronisation
in `ntp.h`, followed by the properties established about them.

Conventions of the embedding:

* C globals become fields of a state record; every function takes the state and
  returns the new one.
* `int` values are `Int`; `uint32_t` values are `Nat` reduced modulo `2^32` where
  the source arithmetic can wrap; `uint8_t` values are `Nat` reduced modulo `256`.
* A fixed-size C array `T a[n]` is a function `Fin n → T`.  An access whose index
  is outside `0..n-1` is undefined behaviour in C; functions containing such an
  access return `none` there.
* The I2C bus and the serial console are append-only logs kept in the state.
  The error code returned by `Wire.endTransmission()` is supplied by an oracle
  `bus : Nat → Nat` giving the code of the n-th transmission.
-/

namespace ClockClock

/-! ## Data model (`clock_state.h`, `digit.h`) -/

/-- Modelled from the spec: `t_clock` is declared in `clock_state.h`, which is not
among the sources.  One Hand has two sub-targets `angle_h`/`angle_m`, a speed, an
acceleration, a mode and a signed adjust offset, each for the two sub-hands; the
field names are the ones the source assigns to.  Fields hold integers as stored. -/
structure t_clock where
  angle_h : Int
  angle_m : Int
  speed_h : Int
  speed_m : Int
  accel_h : Int
  accel_m : Int
  mode_h : Int
  mode_m : Int
  adjust_h : Int
  adjust_m : Int
deriving DecidableEq, Repr

/-- Modelled from the spec: the "lite" hand of a template (`t_half_digitl`), which
carries only the two angles that `get_full_half_digit` copies. -/
structure t_clockl where
  angle_h : Int
  angle_m : Int
deriving DecidableEq, Repr

/-- Modelled from the spec: a HalfDigit template, 3 lite hands (`clocks[i]`, i < 3). -/
structure t_half_digitl where
  clocks : Fin 3 → t_clockl

/-- Modelled from the spec: a Digit, exactly 2 HalfDigit templates (`halfs[0..1]`). -/
structure t_digit where
  halfs : Fin 2 → t_half_digitl

/-- Modelled from the spec: a FullDisplay, exactly 4 Digits (`digit[0..3]`). -/
structure t_full_clock where
  digit : Fin 4 → t_digit

/-- Modelled from the spec: a HandPair, exactly 3 Hands plus the freshness marker,
which the source stores per hand in `change_counter[0..2]`. -/
structure t_half_digit where
  clocks : Fin 3 → t_clock
  change_counter : Fin 3 → Nat

/-- Declarations the sources use but do not contain: the direction-mode
enumerators, the digit table initialisers `digit_0 .. digit_9` (as the array
`_digits[10]` built from them) and the two fixed patterns of `digit.h`. -/
structure Decls where
  MIN_DISTANCE : Int
  CLOCKWISE2 : Int
  ADJUST_HAND : Int
  _digits : Fin 10 → t_digit
  d_stop : t_full_clock
  d_IIII : t_full_clock

/-! ## Observable outputs -/

/-- One I2C transaction: `Wire.beginTransmission(address)`, the payload written by
`I2C_writeAnything`, `Wire.endTransmission()`. -/
structure BusWrite where
  address : Nat
  payload : t_half_digit

/-- Lines printed on the serial console. -/
inductive SerialMsg where
  | set_time (h m : Int)
  | i2c_error (address : Nat) (role : String) (err_str : String) (code : Nat)
  | line (text : String)
deriving DecidableEq, Repr

/-! ## `clock_manger.cpp` -/

/-- The globals of `clock_manger.cpp` together with the bus and console logs. -/
structure ClockManager where
  _speed : Int
  _acceleration : Int
  _direction : Int
  _counter : Nat
  _last_state : Fin 8 → t_half_digit
  wire : List BusWrite
  serial : List SerialMsg

/-- The value of `t_clock x = {0}`. -/
def zero_clock : t_clock :=
  { angle_h := 0, angle_m := 0, speed_h := 0, speed_m := 0, accel_h := 0, accel_m := 0,
    mode_h := 0, mode_m := 0, adjust_h := 0, adjust_m := 0 }

/-- The value of `t_half_digit tmp = {0}`. -/
def zero_half_digit : t_half_digit :=
  { clocks := fun _ => zero_clock, change_counter := fun _ => 0 }

/-- Static initialisation: `_speed = 200`, `_acceleration = 100`,
`_direction = MIN_DISTANCE`, `_counter = 1`, `_last_state[8] = {0}`. -/
def ClockManager.init (D : Decls) : ClockManager :=
  { _speed := 200, _acceleration := 100, _direction := D.MIN_DISTANCE, _counter := 1,
    _last_state := fun _ => zero_half_digit, wire := [], serial := [] }

/-- Checked array index: `some` of the index when `0 ≤ i < n`, `none` (undefined
behaviour in the source) otherwise. -/
def index? (n : Nat) (i : Int) : Option (Fin n) :=
  if h : 0 ≤ i ∧ i < (n : Int) then some ⟨i.toNat, by omega⟩ else none

/-- The function `increment_counter()`: `_counter++; if (_counter == 0) _counter = 1;`
on a `uint32_t`. -/
def increment_counter (s : ClockManager) : ClockManager :=
  let s1 := { s with _counter := (s._counter + 1) % 2 ^ 32 }
  if s1._counter = 0 then { s1 with _counter := 1 } else s1

def get_speed (s : ClockManager) : Int := s._speed

def set_speed (s : ClockManager) (value : Int) : ClockManager := { s with _speed := value }

def get_acceleration (s : ClockManager) : Int := s._acceleration

def set_acceleration (s : ClockManager) (value : Int) : ClockManager :=
  { s with _acceleration := value }

def get_direction (s : ClockManager) : Int := s._direction

def set_direction (s : ClockManager) (value : Int) : ClockManager :=
  { s with _direction := value }

/-- The table `roles[]` of `send_half_digit`. -/
def roles : Fin 8 → String
  | 0 => "Hours Tens - Left"
  | 1 => "Hours Tens - Right"
  | 2 => "Hours Units - Left"
  | 3 => "Hours Units - Right"
  | 4 => "Minutes Tens - Left"
  | 5 => "Minutes Tens - Right"
  | 6 => "Minutes Units - Left"
  | 7 => "Minutes Units - Right"

/-- The `switch (error)` of `send_half_digit`. -/
def err_str (error : Nat) : String :=
  match error with
  | 1 => "Data too long"
  | 2 => "Board missing/unresponsive (NACK on address)"
  | 3 => "Data rejection (NACK on data)"
  | 4 => "Other hardware error"
  | 5 => "Timeout (I2C bus locked up)"
  | _ => "Unknown error"

/-- The function `send_half_digit(index, half_digit)`: one bus transaction to the `uint8_t`
address `index + 1`; a non-zero error code is only reported on the console. -/
def send_half_digit (bus : Nat → Nat) (s : ClockManager) (index : Int)
    (half_digit : t_half_digit) : ClockManager :=
  let address : Nat := ((index + 1) % 256).toNat
  let error : Nat := bus s.wire.length % 256
  let s1 := { s with wire := s.wire ++ [{ address := address, payload := half_digit }] }
  if error ≠ 0 then
    let role : String :=
      match index? 8 index with
      | some i => roles i
      | none => "Unknown position"
    { s1 with serial := s1.serial ++ [SerialMsg.i2c_error address role (err_str error) error] }
  else s1

/-- One iteration of the loop of `get_full_half_digit`. -/
def get_full_half_digit_step (s : ClockManager) (lite_digit : t_half_digitl)
    (tmp : t_half_digit) (i : Fin 3) : t_half_digit :=
  { clocks := Function.update tmp.clocks i
      { tmp.clocks i with
        angle_h := (lite_digit.clocks i).angle_h
        angle_m := (lite_digit.clocks i).angle_m
        speed_h := s._speed
        speed_m := s._speed
        accel_h := s._acceleration
        accel_m := s._acceleration
        mode_h := s._direction
        mode_m := s._direction
        adjust_h := 0
        adjust_m := 0 }
    change_counter := Function.update tmp.change_counter i s._counter }

/-- The function `get_full_half_digit(lite_digit)`: `tmp = {0}`, then the loop `i = 0, 1, 2`. -/
def get_full_half_digit (s : ClockManager) (lite_digit : t_half_digitl) : t_half_digit :=
  ([0, 1, 2] : List (Fin 3)).foldl (get_full_half_digit_step s lite_digit) zero_half_digit

/-- The function `send_digit(index, digit)`: expand both halves, transmit left then right, then
store both in `_last_state[index*2]` and `_last_state[index*2 + 1]`. -/
def send_digit (bus : Nat → Nat) (s : ClockManager) (index : Int) (digit : t_digit) :
    Option ClockManager :=
  let l := get_full_half_digit s (digit.halfs 0)
  let r := get_full_half_digit s (digit.halfs 1)
  let s1 := send_half_digit bus s (index * 2) l
  let s2 := send_half_digit bus s1 (index * 2 + 1) r
  match index? 8 (index * 2) with
  | none => none
  | some i =>
    let s3 := { s2 with _last_state := Function.update s2._last_state i l }
    match index? 8 (index * 2 + 1) with
    | none => none
    | some j => some { s3 with _last_state := Function.update s3._last_state j r }

/-- The function `send_clock(full_clock)`: `for (i = 0; i < 4; i++) send_digit(i, full_clock.digit[i])`. -/
def send_clock (bus : Nat → Nat) (s : ClockManager) (full_clock : t_full_clock) :
    Option ClockManager :=
  ([0, 1, 2, 3] : List (Fin 4)).foldlM
    (fun st (i : Fin 4) => send_digit bus st ((i : Nat) : Int) (full_clock.digit i)) s

/-- The function `set_clock(clock_state)`. -/
def set_clock (bus : Nat → Nat) (s : ClockManager) (clock_state : t_full_clock) :
    Option ClockManager :=
  (send_clock bus s clock_state).map increment_counter

/-- The function `set_digit(index, digit)`. -/
def set_digit (bus : Nat → Nat) (s : ClockManager) (index : Int) (digit : t_digit) :
    Option ClockManager :=
  (send_digit bus s index digit).map increment_counter

/-- The function `set_half_digit(index, half)`. -/
def set_half_digit (bus : Nat → Nat) (s : ClockManager) (index : Int)
    (half : t_half_digitl) : Option ClockManager :=
  let hd := get_full_half_digit s half
  let s1 := send_half_digit bus s index hd
  match index? 8 index with
  | none => none
  | some i =>
    some (increment_counter { s1 with _last_state := Function.update s1._last_state i hd })

/-- The four table indices computed by `get_clock_state_from_time`:
`d0 = h / 10; d1 = h - d0 * 10; d2 = m / 10; d3 = m - d2 * 10` (C division
truncates toward zero). -/
def digit_indices (h m : Int) : Int × Int × Int × Int :=
  let d0 := h.tdiv 10
  let d1 := h - d0 * 10
  let d2 := m.tdiv 10
  let d3 := m - d2 * 10
  (d0, d1, d2, d3)

/-- The function `get_clock_state_from_time(h, m)`: prints the time, then builds
`{_digits[d0], _digits[d1], _digits[d2], _digits[d3]}`. -/
def get_clock_state_from_time (D : Decls) (s : ClockManager) (h m : Int) :
    Option (t_full_clock × ClockManager) :=
  let d := digit_indices h m
  let s1 := { s with serial := s.serial ++ [SerialMsg.set_time h m] }
  match index? 10 d.1, index? 10 d.2.1, index? 10 d.2.2.1, index? 10 d.2.2.2 with
  | some i0, some i1, some i2, some i3 =>
    some ({ digit := ![D._digits i0, D._digits i1, D._digits i2, D._digits i3] }, s1)
  | _, _, _, _ => none

/-- The function `set_clock_time(h, m)`. -/
def set_clock_time (D : Decls) (bus : Nat → Nat) (s : ClockManager) (h m : Int) :
    Option ClockManager :=
  if h < 0 ∨ h > 99 ∨ m < 0 ∨ m > 99 then some s
  else
    match get_clock_state_from_time D s h m with
    | none => none
    | some (clock_state, s1) => set_clock bus s1 clock_state

/-- The conversion `(signed char) x` of an `int`: reduction modulo 256 into
`-128..127`. -/
def signed_char (x : Int) : Int := (x + 128) % 256 - 128

/-- The function `adjust_hands(clock_index, h_amount, m_amount)`. -/
def adjust_hands (D : Decls) (bus : Nat → Nat) (s : ClockManager)
    (clock_index h_amount m_amount : Int) : Option ClockManager :=
  match index? 8 (clock_index.tdiv 3) with
  | none => none
  | some slot =>
    let tmp := s._last_state slot
    match index? 3 (clock_index.tmod 3) with
    | none => none
    | some k =>
      let tmp1 : t_half_digit :=
        { clocks := Function.update tmp.clocks k
            { tmp.clocks k with
              adjust_h := signed_char h_amount
              adjust_m := signed_char m_amount
              mode_h := D.ADJUST_HAND
              mode_m := D.ADJUST_HAND
              speed_h := 5000
              speed_m := 5000
              accel_h := 5000
              accel_m := 5000 }
          change_counter := Function.update tmp.change_counter k s._counter }
      let s1 := send_half_digit bus s (clock_index.tdiv 3) tmp1
      some (increment_counter s1)

/-! ## `main.cpp` -/

/-- The globals of `main.cpp` (`last_hour`, `last_minute`, `is_stopped`) on top of
the clock manager. -/
structure Main where
  last_hour : Int
  last_minute : Int
  is_stopped : Bool
  cm : ClockManager

/-- Static initialisation: `last_hour = -1`, `last_minute = -1`, `is_stopped = false`. -/
def Main.init (D : Decls) : Main :=
  { last_hour := -1, last_minute := -1, is_stopped := false, cm := ClockManager.init D }

/-- The function `set_lazy()`. -/
def set_lazy (D : Decls) (bus : Nat → Nat) (s : Main) : Option Main :=
  let cm1 := set_speed s.cm 200
  let cm2 := set_acceleration cm1 100
  let cm3 := set_direction cm2 D.MIN_DISTANCE
  (set_clock_time D bus cm3 s.last_hour s.last_minute).map fun cm4 => { s with cm := cm4 }

/-- The function `set_fun()`. -/
def set_fun (D : Decls) (bus : Nat → Nat) (s : Main) : Option Main :=
  let cm1 := set_speed s.cm 400
  let cm2 := set_acceleration cm1 150
  let cm3 := set_direction cm2 D.CLOCKWISE2
  (set_clock_time D bus cm3 s.last_hour s.last_minute).map fun cm4 => { s with cm := cm4 }

/-- The function `stop()`. -/
def stop (D : Decls) (bus : Nat → Nat) (s : Main) : Option Main :=
  if !s.is_stopped then
    let s1 := { s with is_stopped := true }
    let s2 := { s1 with last_hour := -1 }
    let s3 := { s2 with last_minute := -1 }
    let cm1 := set_direction s3.cm D.MIN_DISTANCE
    let cm2 := set_speed cm1 200
    let cm3 := set_acceleration cm2 100
    (set_clock bus cm3 D.d_stop).map fun cm4 => { s3 with cm := cm4 }
  else some s

/-- What `_delay` does, in order. -/
inductive DelayEvent where
  | wdtFeed
  | update_MDNS
  | handle_webclient
  | delay (ms : Int)
deriving DecidableEq, Repr

/-- The function `_delay(value)`: `for (i = 0; i < value/100; i++)` feed the
watchdog, service MDNS and web clients, then `delay(value/100)`. -/
def _delay (value : Int) : List DelayEvent :=
  (List.range (value.tdiv 100).toNat).flatMap fun _ =>
    [DelayEvent.wdtFeed, DelayEvent.update_MDNS, DelayEvent.handle_webclient,
     DelayEvent.delay (value.tdiv 100)]

/-! ## `ntp.h` -/

/-- The constant `NTP_PACKET_SIZE`. -/
def NTP_PACKET_SIZE : Nat := 48

/-- The constant `NTP_SYNC_INTERVAL_MS`, `(30UL * 60UL * 1000UL)`. -/
def NTP_SYNC_INTERVAL_MS : Nat := 30 * 60 * 1000

/-- The constant `NTP_RESPONSE_TIMEOUT_MS`. -/
def NTP_RESPONSE_TIMEOUT_MS : Nat := 2000

/-- Modelled from the spec: `SECS_PER_HOUR` comes from the time library header,
which is not among the sources; the conversion adds `timezone_hours × 3600`. -/
def SECS_PER_HOUR : Int := 3600

/-- One UDP datagram handed to `Udp.beginPacket(address, port)` .. `Udp.endPacket()`. -/
structure Datagram where
  ip : Nat
  port : Nat
  payload : List Nat

/-- The globals of `ntp.h`, the wall-clock time committed by `setTime`, the
datagrams waiting in the UDP socket, and the logs of what was sent, how many
name resolutions were attempted and what was printed. -/
structure Ntp where
  _time_zone : Int
  packet_buffer : Fin 48 → Nat
  _ntp_server_ip : Nat
  _ntp_state : Nat
  _ntp_send_time : Nat
  _ntp_last_sync_ms : Nat
  sysTime : Int
  inbox : List (List Nat)
  sent : List Datagram
  lookups : Nat
  serial : List SerialMsg

/-- Static initialisation: `_time_zone = 1`, `_ntp_state = 0`, `_ntp_send_time = 0`,
`_ntp_last_sync_ms = 0`, zeroed buffer. -/
def Ntp.init : Ntp :=
  { _time_zone := 1, packet_buffer := fun _ => 0, _ntp_server_ip := 0, _ntp_state := 0,
    _ntp_send_time := 0, _ntp_last_sync_ms := 0, sysTime := 0, inbox := [], sent := [],
    lookups := 0, serial := [] }

/-- Subtraction of two `uint32_t` values. -/
def sub_u32 (a b : Nat) : Nat := (((a : Int) - (b : Int)) % 2 ^ 32).toNat

/-- The call `WiFi.hostByName(ntp_server_name, _ntp_server_ip)`: `dns` is the
outcome of the lookup, `some ip` when the name resolves (the address is stored) and
`none` when it does not. -/
def hostByName (s : Ntp) (dns : Option Nat) : Bool × Ntp :=
  let s1 := { s with lookups := s.lookups + 1 }
  match dns with
  | some ip => (true, { s1 with _ntp_server_ip := ip })
  | none => (false, s1)

/-- The call `Udp.parsePacket()`: makes the next waiting datagram current and
returns its size, or returns 0 when none is waiting. -/
def parsePacket (s : Ntp) : Nat × List Nat × Ntp :=
  match s.inbox with
  | [] => (0, [], s)
  | p :: rest => (p.length, p, { s with inbox := rest })

/-- The loop `while (Udp.parsePacket() > 0);` on the queue of waiting datagrams. -/
def discard_stale : List (List Nat) → List (List Nat)
  | [] => []
  | p :: rest => if p.length > 0 then discard_stale rest else rest

/-- The function `begin_NTP()`. -/
def begin_NTP (s : Ntp) (dns : Option Nat) : Ntp :=
  let s1 := { s with serial := s.serial ++ [SerialMsg.line "Resolving NTP server..."] }
  let r := hostByName s1 dns
  if r.1 then
    { r.2 with
      serial := r.2.serial
        ++ [SerialMsg.line "NTP server IP: ", SerialMsg.line (toString r.2._ntp_server_ip)] }
  else
    { r.2 with serial := r.2.serial ++ [SerialMsg.line "NTP DNS lookup failed at startup."] }

/-- The function `send_NTP_packet(address)`: `memset` the buffer to 0, fill in the
header bytes, send the 48 bytes to port 123. -/
def send_NTP_packet (s : Ntp) (address : Nat) : Ntp :=
  let b0 : Fin 48 → Nat := fun _ => 0
  let b1 := Function.update b0 0 0b11100011
  let b2 := Function.update b1 1 0
  let b3 := Function.update b2 2 6
  let b4 := Function.update b3 3 0xEC
  let b5 := Function.update b4 12 49
  let b6 := Function.update b5 13 0x4E
  let b7 := Function.update b6 14 49
  let b8 := Function.update b7 15 52
  { s with
    packet_buffer := b8
    sent := s.sent ++ [{ ip := address, port := 123, payload := List.ofFn b8 }] }

/-- The function `set_ntp_timezone(value)`. -/
def set_ntp_timezone (s : Ntp) (value : Int) : Ntp := { s with _time_zone := value }

/-- The function `get_ntp_timezone()`. -/
def get_ntp_timezone (s : Ntp) : Int := s._time_zone

/-- The function `request_ntp_sync()`. -/
def request_ntp_sync (s : Ntp) : Ntp :=
  let s1 := { s with _ntp_last_sync_ms := 0 }
  { s1 with _ntp_state := 0 }

/-- The four `secs_since_1900` assignments of `tick_NTP` on the 32-bit
`unsigned long`, from the buffer bytes 40..43. -/
def secs_since_1900 (packet_buffer : Fin 48 → Nat) : Nat :=
  let v0 := (packet_buffer 40 <<< 24) % 2 ^ 32
  let v1 := v0 ||| (packet_buffer 41 <<< 16) % 2 ^ 32
  let v2 := v1 ||| (packet_buffer 42 <<< 8) % 2 ^ 32
  v2 ||| packet_buffer 43

/-- The function `tick_NTP()`.  `millis` is the value returned by `millis()`, `dns`
the outcome a name resolution has if this tick performs one, and `time_t` the conversion of an
integer to the platform's `time_t` (declared outside the sources).  The difference
`secs_since_1900 - 2208988800UL` is taken on the 32-bit `unsigned long`; adding
`_time_zone * SECS_PER_HOUR` and storing into `unix_time` yields the exact sum
converted to `time_t`, whichever integer type that is. -/
def tick_NTP (time_t : Int → Int) (s : Ntp) (millis : Nat) (dns : Option Nat) : Ntp :=
  let now_ms := millis % 2 ^ 32
  if s._ntp_state = 0 then
    let sync_due : Bool :=
      s._ntp_last_sync_ms = 0 || sub_u32 now_ms s._ntp_last_sync_ms ≥ NTP_SYNC_INTERVAL_MS
    if !sync_due then s
    else
      let r := hostByName s dns
      if !r.1 then
        let s1 := { r.2 with
          serial := r.2.serial ++ [SerialMsg.line "NTP DNS lookup failed, skipping sync."] }
        { s1 with _ntp_last_sync_ms := now_ms }
      else
        let s1 := { r.2 with inbox := discard_stale r.2.inbox }
        let s2 := send_NTP_packet s1 s1._ntp_server_ip
        let s3 := { s2 with _ntp_send_time := now_ms }
        let s4 := { s3 with _ntp_state := 1 }
        { s4 with serial := s4.serial ++ [SerialMsg.line "NTP request sent (non-blocking)."] }
  else
    let r := parsePacket s
    let size := r.1
    let s1 := r.2.2
    if size ≥ NTP_PACKET_SIZE then
      let s2 := { s1 with packet_buffer := fun i => r.2.1.getD i.val 0 % 256 }
      let secs := secs_since_1900 s2.packet_buffer
      let unix_time : Int :=
        time_t ((sub_u32 secs 2208988800 : Nat) + s2._time_zone * SECS_PER_HOUR)
      let s3 := { s2 with sysTime := unix_time }
      let s4 := { s3 with _ntp_last_sync_ms := now_ms }
      let s5 := { s4 with _ntp_state := 0 }
      { s5 with serial := s5.serial ++ [SerialMsg.line "NTP sync successful."] }
    else if sub_u32 now_ms s1._ntp_send_time > NTP_RESPONSE_TIMEOUT_MS then
      let s2 := { s1 with serial := s1.serial ++ [SerialMsg.line "NTP response timeout."] }
      let s3 := { s2 with _ntp_last_sync_ms := now_ms }
      { s3 with _ntp_state := 0 }
    else s1

/-! ## Vocabulary of the statements -/

/-- Closed form of the HandPair that `get_full_half_digit` builds, as a function of
the profile values and the counter it reads. -/
def expand (speed accel dir : Int) (marker : Nat) (l : t_half_digitl) : t_half_digit :=
  { clocks := fun i =>
      { angle_h := (l.clocks i).angle_h, angle_m := (l.clocks i).angle_m,
        speed_h := speed, speed_m := speed, accel_h := accel, accel_m := accel,
        mode_h := dir, mode_m := dir, adjust_h := 0, adjust_m := 0 }
    change_counter := fun _ => marker }

/-- Slot `index*2` of digit `index`. -/
def left_slot (i : Fin 4) : Fin 8 := ⟨2 * i.val, by omega⟩

/-- Slot `index*2 + 1` of digit `index`. -/
def right_slot (i : Fin 4) : Fin 8 := ⟨2 * i.val + 1, by omega⟩

/-- The template of slot `j` of a full clock: `full_clock.digit[j/2].halfs[j%2]`. -/
def half_of (c : t_full_clock) (j : Fin 8) : t_half_digitl :=
  (c.digit ⟨j.val / 2, by omega⟩).halfs ⟨j.val % 2, by omega⟩

/-- The eight transmissions of a full display update in slot order: slot `j` goes
to address `j + 1`. -/
def full_update_writes (speed accel dir : Int) (marker : Nat) (c : t_full_clock) :
    List BusWrite :=
  (List.finRange 8).map fun j =>
    { address := j.val + 1, payload := expand speed accel dir marker (half_of c j) }

/-- The transmissions a step added to the bus log. -/
def new_writes (before after : ClockManager) : List BusWrite :=
  after.wire.drop before.wire.length

/-- The public operations of the clock manager that may be applied to a state. -/
inductive Command where
  | set_speed (value : Int)
  | set_acceleration (value : Int)
  | set_direction (value : Int)
  | set_clock (clock_state : t_full_clock)
  | set_digit (index : Int) (digit : t_digit)
  | set_half_digit (index : Int) (half : t_half_digitl)
  | set_clock_time (h m : Int)
  | adjust_hands (clock_index h_amount m_amount : Int)

/-- Running one command. -/
def Command.run (D : Decls) (bus : Nat → Nat) (s : ClockManager) :
    Command → Option ClockManager
  | .set_speed value => some (ClockClock.set_speed s value)
  | .set_acceleration value => some (ClockClock.set_acceleration s value)
  | .set_direction value => some (ClockClock.set_direction s value)
  | .set_clock clock_state => ClockClock.set_clock bus s clock_state
  | .set_digit index digit => ClockClock.set_digit bus s index digit
  | .set_half_digit index half => ClockClock.set_half_digit bus s index half
  | .set_clock_time h m => ClockClock.set_clock_time D bus s h m
  | .adjust_hands k dh dm => ClockClock.adjust_hands D bus s k dh dm

/-- The markers a command stamps into the HandPairs `ws` it transmits:
`adjust_hands` writes `change_counter[clock_index % 3]` only, the other commands
write all three entries of every HandPair. -/
def Command.stamped (cmd : Command) (ws : List BusWrite) : List Nat :=
  match cmd with
  | .adjust_hands k _ _ =>
    match index? 3 (k.tmod 3) with
    | some i => ws.map fun w => w.payload.change_counter i
    | none => []
  | _ =>
    ws.flatMap fun w =>
      [w.payload.change_counter 0, w.payload.change_counter 1, w.payload.change_counter 2]

/-- States reachable from the static initialisation by running commands. -/
inductive Reachable (D : Decls) (bus : Nat → Nat) : ClockManager → Prop where
  | init : Reachable D bus (ClockManager.init D)
  | step (s s1 : ClockManager) (cmd : Command) :
      Reachable D bus s → cmd.run D bus s = some s1 → Reachable D bus s1

/-- A digit whose template angles encode the number `n`, the half and the hand. -/
def sample_digit (n : Int) : t_digit :=
  { halfs := fun j => { clocks := fun i =>
      { angle_h := n * 100 + j.val * 10 + i.val, angle_m := n } } }

/-- A concrete instance of the absent declarations, used to run the functions:
`MIN_DISTANCE = 2`, `CLOCKWISE2 = 5`, `ADJUST_HAND = 4`, digit `i` of the table is
`sample_digit i`, the stop pattern shows `sample_digit 77` four times. -/
def sample_decls : Decls :=
  Decls.mk 2 5 4 (fun i => sample_digit i.val) { digit := fun _ => sample_digit 77 }
    { digit := fun _ => sample_digit 88 }

/-- A bus on which every transmission succeeds. -/
def bus_ok : Nat → Nat := fun _ => 0

/-- A bus on which every transmission is not acknowledged (error code 2). -/
def bus_nack : Nat → Nat := fun _ => 2

/-- Conversion to a 32-bit unsigned `time_t`. -/
def time_t_unsigned32 (x : Int) : Int := x % 2 ^ 32

/-- Conversion to a 64-bit signed `time_t`. -/
def time_t_signed64 (x : Int) : Int := (x + 2 ^ 63) % 2 ^ 64 - 2 ^ 63

/-- The HandPair that `adjust_hands` builds from the cached entry `tmp`. -/
def adjusted (D : Decls) (tmp : t_half_digit) (k : Fin 3) (h_amount m_amount : Int)
    (marker : Nat) : t_half_digit :=
  { clocks := Function.update tmp.clocks k
      { tmp.clocks k with
        adjust_h := signed_char h_amount
        adjust_m := signed_char m_amount
        mode_h := D.ADJUST_HAND
        mode_m := D.ADJUST_HAND
        speed_h := 5000
        speed_m := 5000
        accel_h := 5000
        accel_m := 5000 }
    change_counter := Function.update tmp.change_counter k marker }

/-- The state after `set_clock_time(10, 30)` from the initial state on a healthy bus. -/
def sample_shown : ClockManager :=
  (set_clock_time sample_decls bus_ok (ClockManager.init sample_decls) 10 30).getD
    (ClockManager.init sample_decls)

/-- The state after a further `adjust_hands(3, 2, -1)`. -/
def sample_adjusted : ClockManager :=
  (adjust_hands sample_decls bus_ok sample_shown 3 2 (-1)).getD sample_shown

/-- A 48-byte response whose bytes 40..43 are `b40 b41 b42 b43` and whose other
bytes are 0. -/
def sample_response (b40 b41 b42 b43 : Nat) : List Nat :=
  List.replicate 40 0 ++ [b40, b41, b42, b43] ++ List.replicate 4 0

/-- A state waiting for a response, with timezone +1 and one datagram queued whose
seconds field is 3913056000 (hexadecimal E9 3C 7F 00). -/
def sample_waiting : Ntp :=
  { Ntp.init with
    _ntp_state := 1, _ntp_send_time := 1000, inbox := [sample_response 0xE9 0x3C 0x7F 0x00] }

/-- The clamp of the spec's wording, "clamped to a single-byte signed range":
`max(-128, min(127, amount))`. -/
def clamp_signed_char (x : Int) : Int := max (-128) (min 127 x)

/-- A state with the profile and counter of `sample_adjusted` but an empty cache
and an empty bus log. -/
def sample_blank : ClockManager :=
  { sample_adjusted with _last_state := fun _ => zero_half_digit, wire := [] }

/-- A run of `tick_NTP` calls, one per `millis()` value of the list, with `dns` the
outcome of any name resolution made on the way. -/
def ticks (time_t : Int → Int) (dns : Option Nat) : Ntp → List Nat → Ntp
  | s, [] => s
  | s, t :: ts => ticks time_t dns (tick_NTP time_t s t dns) ts

/-- The 48 bytes that `send_NTP_packet` leaves in the buffer, written as in the
source: `0b11100011`, 0, 6, `0xEC`, eight zero bytes, 49, `0x4E`, 49, 52, and 32
zero bytes. -/
def request_bytes : List Nat :=
  [0b11100011, 0, 6, 0xEC, 0, 0, 0, 0, 0, 0, 0, 0, 49, 0x4E, 49, 52] ++ List.replicate 32 0

/-- An idle state whose last synchronisation was at `millis() = 4293167296`, that is
`2^32 - 1800000`: the next sync becomes due exactly when the 32-bit millisecond
clock wraps to 0. -/
def sample_idle_late : Ntp := { Ntp.init with _ntp_last_sync_ms := 4293167296 }

/-- A state waiting for a response with a buffer full of `0xFF` bytes. -/
def sample_dirty : Ntp :=
  { Ntp.init with _ntp_state := 1, _ntp_send_time := 1000, packet_buffer := fun _ => 0xFF }

/-- The total of the arguments of the `delay()` calls in a trace of `_delay`. -/
def total_delay : List DelayEvent → Int
  | [] => 0
  | DelayEvent.delay ms :: rest => ms + total_delay rest
  | _ :: rest => total_delay rest

/-! ## Lemmas on the clock manager -/

theorem get_full_half_digit_eq (s : ClockManager) (l : t_half_digitl) :
    get_full_half_digit s l = expand s._speed s._acceleration s._direction s._counter l := by
  unfold get_full_half_digit expand
  simp only [List.foldl, get_full_half_digit_step]
  congr 1
  · funext i
    fin_cases i <;> simp [Function.update]
  · funext i
    fin_cases i <;> simp [Function.update]

@[simp]
theorem send_half_digit_wire (bus : Nat → Nat) (s : ClockManager) (index : Int)
    (hd : t_half_digit) :
    (send_half_digit bus s index hd).wire
      = s.wire ++ [{ address := ((index + 1) % 256).toNat, payload := hd }] := by
  unfold send_half_digit; dsimp only; split_ifs <;> rfl

@[simp]
theorem send_half_digit_counter (bus : Nat → Nat) (s : ClockManager) (index : Int)
    (hd : t_half_digit) :
    (send_half_digit bus s index hd)._counter = s._counter := by
  unfold send_half_digit; dsimp only; split_ifs <;> rfl

@[simp]
theorem send_half_digit_speed (bus : Nat → Nat) (s : ClockManager) (index : Int)
    (hd : t_half_digit) :
    (send_half_digit bus s index hd)._speed = s._speed := by
  unfold send_half_digit; dsimp only; split_ifs <;> rfl

@[simp]
theorem send_half_digit_acceleration (bus : Nat → Nat) (s : ClockManager) (index : Int)
    (hd : t_half_digit) :
    (send_half_digit bus s index hd)._acceleration = s._acceleration := by
  unfold send_half_digit; dsimp only; split_ifs <;> rfl

@[simp]
theorem send_half_digit_direction (bus : Nat → Nat) (s : ClockManager) (index : Int)
    (hd : t_half_digit) :
    (send_half_digit bus s index hd)._direction = s._direction := by
  unfold send_half_digit; dsimp only; split_ifs <;> rfl

@[simp]
theorem send_half_digit_last_state (bus : Nat → Nat) (s : ClockManager) (index : Int)
    (hd : t_half_digit) :
    (send_half_digit bus s index hd)._last_state = s._last_state := by
  unfold send_half_digit; dsimp only; split_ifs <;> rfl

theorem index?_of_lt {n : Nat} (k : Nat) (h : k < n) : index? n (k : Int) = some ⟨k, h⟩ := by
  unfold index?
  rw [dif_pos ⟨by omega, by omega⟩]
  simp

theorem index?_eq_some {n : Nat} {i : Int} {j : Fin n} (h : index? n i = some j) :
    i = (j.val : Int) := by
  unfold index? at h
  split at h
  · rename_i hi
    simp at h
    rw [← h]
    simp
    omega
  · simp at h

theorem index?_eq_none {n : Nat} {i : Int} : index? n i = none ↔ ¬ (0 ≤ i ∧ i < (n : Int)) := by
  unfold index?
  split <;> simp_all

theorem send_digit_spec (bus : Nat → Nat) (s : ClockManager) (i : Fin 4) (d : t_digit) :
    ∃ s1, send_digit bus s ((i : Nat) : Int) d = some s1
      ∧ s1.wire = s.wire ++
          [{ address := 2 * i.val + 1,
             payload := expand s._speed s._acceleration s._direction s._counter (d.halfs 0) },
           { address := 2 * i.val + 2,
             payload := expand s._speed s._acceleration s._direction s._counter (d.halfs 1) }]
      ∧ s1._counter = s._counter ∧ s1._speed = s._speed
      ∧ s1._acceleration = s._acceleration ∧ s1._direction = s._direction
      ∧ s1._last_state =
          Function.update
            (Function.update s._last_state (left_slot i)
              (expand s._speed s._acceleration s._direction s._counter (d.halfs 0)))
            (right_slot i)
            (expand s._speed s._acceleration s._direction s._counter (d.halfs 1)) := by
  have h0 : index? 8 (((i : Nat) : Int) * 2) = some (left_slot i) := by
    have e : ((i : Nat) : Int) * 2 = ((2 * i.val : Nat) : Int) := by push_cast; ring
    rw [e, index?_of_lt _ (by omega)]; rfl
  have h1 : index? 8 (((i : Nat) : Int) * 2 + 1) = some (right_slot i) := by
    have e : ((i : Nat) : Int) * 2 + 1 = ((2 * i.val + 1 : Nat) : Int) := by push_cast; ring
    rw [e, index?_of_lt _ (by omega)]; rfl
  have a0 : ((((i : Nat) : Int) * 2 + 1) % 256).toNat = 2 * i.val + 1 := by omega
  have a1 : ((((i : Nat) : Int) * 2 + 1 + 1) % 256).toNat = 2 * i.val + 2 := by omega
  unfold send_digit
  simp only [h0, h1]
  refine ⟨_, rfl, ?_⟩
  simp [get_full_half_digit_eq, a0, a1]

theorem send_clock_spec (bus : Nat → Nat) (s : ClockManager) (c : t_full_clock) :
    ∃ s1, send_clock bus s c = some s1
      ∧ s1.wire = s.wire ++ full_update_writes s._speed s._acceleration s._direction s._counter c
      ∧ s1._counter = s._counter ∧ s1._speed = s._speed
      ∧ s1._acceleration = s._acceleration ∧ s1._direction = s._direction
      ∧ ∀ j : Fin 8, s1._last_state j
          = expand s._speed s._acceleration s._direction s._counter (half_of c j) := by
  obtain ⟨s1, e1, w1, c1, p1, q1, r1, l1⟩ := send_digit_spec bus s 0 (c.digit 0)
  obtain ⟨s2, e2, w2, c2, p2, q2, r2, l2⟩ := send_digit_spec bus s1 1 (c.digit 1)
  obtain ⟨s3, e3, w3, c3, p3, q3, r3, l3⟩ := send_digit_spec bus s2 2 (c.digit 2)
  obtain ⟨s4, e4, w4, c4, p4, q4, r4, l4⟩ := send_digit_spec bus s3 3 (c.digit 3)
  refine ⟨s4, ?_, ?_, by omega, ?_, ?_, ?_, ?_⟩
  · unfold send_clock
    simp only [List.foldlM, e1, e2, e3, e4, Option.bind_eq_bind, Option.some_bind, Option.pure_def]
  · rw [w4, w3, w2, w1, c3, c2, c1, p3, p2, p1, q3, q2, q1, r3, r2, r1]
    simp only [List.append_assoc, List.cons_append, List.nil_append]
    rfl
  · rw [p4, p3, p2, p1]
  · rw [q4, q3, q2, q1]
  · rw [r4, r3, r2, r1]
  · intro j
    rw [l4, l3, l2, l1, c3, c2, c1, p3, p2, p1, q3, q2, q1, r3, r2, r1]
    fin_cases j <;> rfl

theorem increment_counter_counter (s : ClockManager) :
    (increment_counter s)._counter
      = if (s._counter + 1) % 2 ^ 32 = 0 then 1 else (s._counter + 1) % 2 ^ 32 := by
  unfold increment_counter; dsimp only; split_ifs <;> rfl

@[simp]
theorem increment_counter_wire (s : ClockManager) :
    (increment_counter s).wire = s.wire := by
  unfold increment_counter; dsimp only; split_ifs <;> rfl

@[simp]
theorem increment_counter_speed (s : ClockManager) :
    (increment_counter s)._speed = s._speed := by
  unfold increment_counter; dsimp only; split_ifs <;> rfl

@[simp]
theorem increment_counter_acceleration (s : ClockManager) :
    (increment_counter s)._acceleration = s._acceleration := by
  unfold increment_counter; dsimp only; split_ifs <;> rfl

@[simp]
theorem increment_counter_direction :
    (increment_counter s)._direction = s._direction := by
  unfold increment_counter; dsimp only; split_ifs <;> rfl

@[simp]
theorem increment_counter_last_state :
    (increment_counter s)._last_state = s._last_state := by
  unfold increment_counter; dsimp only; split_ifs <;> rfl

@[simp]
theorem increment_counter_serial (s : ClockManager) :
    (increment_counter s).serial = s.serial := by
  unfold increment_counter; dsimp only; split_ifs <;> rfl

/-- The counter after `increment_counter` depends on the counter before only. -/
theorem increment_counter_congr {s t : ClockManager} (h : s._counter = t._counter) :
    (increment_counter s)._counter = (increment_counter t)._counter := by
  rw [increment_counter_counter, increment_counter_counter, h]

/-- One step of the counter from a non-zero 32-bit value. -/
theorem increment_counter_step (s : ClockManager) (h32 : s._counter < 2 ^ 32) :
    (increment_counter s)._counter ≠ 0 ∧ (increment_counter s)._counter < 2 ^ 32
      ∧ (s._counter < (increment_counter s)._counter
          ∨ (s._counter = 2 ^ 32 - 1 ∧ (increment_counter s)._counter = 1)) := by
  rw [increment_counter_counter]
  split_ifs with h <;> omega

theorem set_clock_spec (bus : Nat → Nat) (s : ClockManager) (c : t_full_clock) :
    ∃ s1, set_clock bus s c = some s1
      ∧ s1.wire = s.wire ++ full_update_writes s._speed s._acceleration s._direction s._counter c
      ∧ s1._counter = (increment_counter s)._counter ∧ s1._speed = s._speed
      ∧ s1._acceleration = s._acceleration ∧ s1._direction = s._direction
      ∧ ∀ j : Fin 8, s1._last_state j
          = expand s._speed s._acceleration s._direction s._counter (half_of c j) := by
  obtain ⟨s1, e, w, c1, p, q, r, l⟩ := send_clock_spec bus s c
  refine ⟨increment_counter s1, ?_, ?_, increment_counter_congr c1, ?_, ?_, ?_, ?_⟩
  · unfold set_clock; rw [e]; rfl
  · simpa using w
  · simpa using p
  · simpa using q
  · simpa using r
  · simpa using l

theorem full_update_writes_length (speed accel dir : Int) (marker : Nat) (c : t_full_clock) :
    (full_update_writes speed accel dir marker c).length = 8 := by
  simp [full_update_writes]

theorem full_update_writes_address (speed accel dir : Int) (marker : Nat) (c : t_full_clock) :
    (full_update_writes speed accel dir marker c).map (fun w => w.address)
      = [1, 2, 3, 4, 5, 6, 7, 8] := by
  rfl

theorem full_update_writes_get (speed accel dir : Int) (marker : Nat) (c : t_full_clock)
    (j : Fin 8) :
    (full_update_writes speed accel dir marker c)[j.val]?
      = some { address := j.val + 1, payload := expand speed accel dir marker (half_of c j) } := by
  fin_cases j <;> rfl

theorem full_update_writes_marker (speed accel dir : Int) (marker : Nat) (c : t_full_clock)
    (w : BusWrite) (hw : w ∈ full_update_writes speed accel dir marker c) (i : Fin 3) :
    w.payload.change_counter i = marker := by
  unfold full_update_writes at hw
  rw [List.mem_map] at hw
  obtain ⟨j, -, rfl⟩ := hw
  rfl

theorem index?_of_range {n : Nat} {i : Int} (h : 0 ≤ i ∧ i < (n : Int)) :
    ∃ j : Fin n, index? n i = some j ∧ ((j.val : Nat) : Int) = i := by
  refine ⟨⟨i.toNat, by omega⟩, ?_, by simp; omega⟩
  unfold index?
  rw [dif_pos h]

theorem digit_indices_spec (h m : Int) (hh : 0 ≤ h ∧ h ≤ 99) (hm : 0 ≤ m ∧ m ≤ 99) :
    (0 ≤ (digit_indices h m).1 ∧ (digit_indices h m).1 ≤ 9)
      ∧ (0 ≤ (digit_indices h m).2.1 ∧ (digit_indices h m).2.1 ≤ 9)
      ∧ (0 ≤ (digit_indices h m).2.2.1 ∧ (digit_indices h m).2.2.1 ≤ 9)
      ∧ (0 ≤ (digit_indices h m).2.2.2 ∧ (digit_indices h m).2.2.2 ≤ 9)
      ∧ 10 * (digit_indices h m).1 + (digit_indices h m).2.1 = h
      ∧ 10 * (digit_indices h m).2.2.1 + (digit_indices h m).2.2.2 = m := by
  unfold digit_indices
  dsimp only
  rw [Int.tdiv_eq_ediv hh.1 (by decide), Int.tdiv_eq_ediv hm.1 (by decide)]
  omega

theorem get_clock_state_from_time_spec (D : Decls) (s : ClockManager) (h m : Int)
    (hh : 0 ≤ h ∧ h ≤ 99) (hm : 0 ≤ m ∧ m ≤ 99) :
    ∃ i0 i1 i2 i3 : Fin 10,
      ((i0.val : Nat) : Int) = (digit_indices h m).1
      ∧ ((i1.val : Nat) : Int) = (digit_indices h m).2.1
      ∧ ((i2.val : Nat) : Int) = (digit_indices h m).2.2.1
      ∧ ((i3.val : Nat) : Int) = (digit_indices h m).2.2.2
      ∧ get_clock_state_from_time D s h m
          = some ({ digit := ![D._digits i0, D._digits i1, D._digits i2, D._digits i3] },
                  { s with serial := s.serial ++ [SerialMsg.set_time h m] }) := by
  obtain ⟨r0, r1, r2, r3, -, -⟩ := digit_indices_spec h m hh hm
  obtain ⟨i0, e0, v0⟩ := index?_of_range (n := 10) (i := (digit_indices h m).1) ⟨r0.1, by omega⟩
  obtain ⟨i1, e1, v1⟩ := index?_of_range (n := 10) (i := (digit_indices h m).2.1) ⟨r1.1, by omega⟩
  obtain ⟨i2, e2, v2⟩ := index?_of_range (n := 10) (i := (digit_indices h m).2.2.1) ⟨r2.1, by omega⟩
  obtain ⟨i3, e3, v3⟩ := index?_of_range (n := 10) (i := (digit_indices h m).2.2.2) ⟨r3.1, by omega⟩
  refine ⟨i0, i1, i2, i3, v0, v1, v2, v3, ?_⟩
  unfold get_clock_state_from_time
  simp only [e0, e1, e2, e3]

theorem set_clock_time_spec (D : Decls) (bus : Nat → Nat) (s : ClockManager) (h m : Int)
    (hh : 0 ≤ h ∧ h ≤ 99) (hm : 0 ≤ m ∧ m ≤ 99) :
    ∃ c s0 s1, get_clock_state_from_time D s h m = some (c, s0)
      ∧ set_clock_time D bus s h m = some s1
      ∧ set_clock bus s0 c = some s1
      ∧ s1.wire = s.wire ++ full_update_writes s._speed s._acceleration s._direction s._counter c
      ∧ s1._counter = (increment_counter s)._counter ∧ s1._speed = s._speed
      ∧ s1._acceleration = s._acceleration ∧ s1._direction = s._direction
      ∧ ∀ j : Fin 8, s1._last_state j
          = expand s._speed s._acceleration s._direction s._counter (half_of c j) := by
  obtain ⟨i0, i1, i2, i3, -, -, -, -, e⟩ := get_clock_state_from_time_spec D s h m hh hm
  obtain ⟨s1, e1, w, c1, p, q, r, l⟩ :=
    set_clock_spec bus { s with serial := s.serial ++ [SerialMsg.set_time h m] }
      { digit := ![D._digits i0, D._digits i1, D._digits i2, D._digits i3] }
  refine ⟨_, _, s1, e, ?_, e1, w, ?_, p, q, r, l⟩
  · unfold set_clock_time
    rw [if_neg (by omega), e]
    exact e1
  · rw [c1]; exact increment_counter_congr rfl

theorem send_digit_effect (bus : Nat → Nat) (s s1 : ClockManager) (index : Int) (d : t_digit)
    (h : send_digit bus s index d = some s1) :
    s1.wire = s.wire ++
        [{ address := ((index * 2 + 1) % 256).toNat,
           payload := expand s._speed s._acceleration s._direction s._counter (d.halfs 0) },
         { address := ((index * 2 + 1 + 1) % 256).toNat,
           payload := expand s._speed s._acceleration s._direction s._counter (d.halfs 1) }]
      ∧ s1._counter = s._counter := by
  unfold send_digit at h
  dsimp only at h
  split at h
  · simp at h
  · split at h
    · simp at h
    · simp only [Option.some.injEq] at h
      subst h
      simp [get_full_half_digit_eq]

theorem set_half_digit_effect (bus : Nat → Nat) (s s1 : ClockManager) (index : Int)
    (half : t_half_digitl) (h : set_half_digit bus s index half = some s1) :
    s1.wire = s.wire ++
        [{ address := ((index + 1) % 256).toNat,
           payload := expand s._speed s._acceleration s._direction s._counter half }]
      ∧ s1._counter = (increment_counter s)._counter := by
  unfold set_half_digit at h
  dsimp only at h
  split at h
  · simp at h
  · simp only [Option.some.injEq] at h
    subst h
    refine ⟨by simp [get_full_half_digit_eq], increment_counter_congr ?_⟩
    simp

theorem adjust_hands_effect (D : Decls) (bus : Nat → Nat) (s s1 : ClockManager)
    (k dh dm : Int) (h : adjust_hands D bus s k dh dm = some s1) :
    ∃ slot : Fin 8, ∃ hand : Fin 3,
      index? 8 (k.tdiv 3) = some slot ∧ index? 3 (k.tmod 3) = some hand
      ∧ s1.wire = s.wire ++
          [{ address := ((k.tdiv 3 + 1) % 256).toNat,
             payload := adjusted D (s._last_state slot) hand dh dm s._counter }]
      ∧ s1._counter = (increment_counter s)._counter
      ∧ s1._last_state = s._last_state ∧ s1._speed = s._speed
      ∧ s1._acceleration = s._acceleration ∧ s1._direction = s._direction := by
  unfold adjust_hands at h
  split at h
  · simp at h
  · rename_i slot hs
    dsimp only at h
    split at h
    · simp at h
    · rename_i hand hk
      simp only [Option.some.injEq] at h
      subst h
      refine ⟨slot, hand, hs, hk, by simp [adjusted], increment_counter_congr (by simp),
        by simp, by simp, by simp, by simp⟩

theorem adjust_hands_spec (D : Decls) (bus : Nat → Nat) (s : ClockManager) (k dh dm : Int)
    (hk : 0 ≤ k ∧ k ≤ 23) :
    ∃ slot : Fin 8, ∃ hand : Fin 3, ∃ s1,
      ((slot.val : Nat) : Int) = k / 3 ∧ ((hand.val : Nat) : Int) = k % 3
      ∧ adjust_hands D bus s k dh dm = some s1
      ∧ s1.wire = s.wire ++
          [{ address := slot.val + 1,
             payload := adjusted D (s._last_state slot) hand dh dm s._counter }]
      ∧ s1._counter = (increment_counter s)._counter
      ∧ s1._last_state = s._last_state ∧ s1._speed = s._speed
      ∧ s1._acceleration = s._acceleration ∧ s1._direction = s._direction := by
  have hd : k.tdiv 3 = k / 3 := Int.tdiv_eq_ediv hk.1 (by decide)
  have hm : k.tmod 3 = k % 3 := Int.tmod_eq_emod hk.1 (by decide)
  obtain ⟨slot, es, vs⟩ := index?_of_range (n := 8) (i := k.tdiv 3) (by rw [hd]; omega)
  obtain ⟨hand, eh, vh⟩ := index?_of_range (n := 3) (i := k.tmod 3) (by rw [hm]; omega)
  have ha : ((k.tdiv 3 + 1) % 256).toNat = slot.val + 1 := by omega
  refine ⟨slot, hand, increment_counter (send_half_digit bus s (k.tdiv 3)
    (adjusted D (s._last_state slot) hand dh dm s._counter)), by omega, by omega, ?_, ?_,
    increment_counter_congr (by simp), by simp, by simp, by simp, by simp⟩
  · unfold adjust_hands
    simp only [es, eh]
    rfl
  · simp [ha]

/-! ## Freshness counter -/

theorem expand_marker (speed accel dir : Int) (marker : Nat) (l : t_half_digitl) (i : Fin 3) :
    (expand speed accel dir marker l).change_counter i = marker := rfl

/-- What one command adds to the bus log, which markers it stamps and how it moves
the counter. -/
theorem command_effect (D : Decls) (bus : Nat → Nat) (s s1 : ClockManager)
    (cmd : Command) (h : cmd.run D bus s = some s1) :
    ∃ ws, s1.wire = s.wire ++ ws ∧ (∀ x ∈ cmd.stamped ws, x = s._counter)
      ∧ ((ws = [] ∧ s1._counter = s._counter)
          ∨ (ws ≠ [] ∧ s1._counter = (increment_counter s)._counter)) := by
  cases cmd with
  | set_speed value =>
    simp only [Command.run, Option.some.injEq] at h
    subst h
    exact ⟨[], by simp [set_speed], by simp [Command.stamped], Or.inl ⟨rfl, rfl⟩⟩
  | set_acceleration value =>
    simp only [Command.run, Option.some.injEq] at h
    subst h
    exact ⟨[], by simp [set_acceleration], by simp [Command.stamped], Or.inl ⟨rfl, rfl⟩⟩
  | set_direction value =>
    simp only [Command.run, Option.some.injEq] at h
    subst h
    exact ⟨[], by simp [set_direction], by simp [Command.stamped], Or.inl ⟨rfl, rfl⟩⟩
  | set_clock c =>
    obtain ⟨s2, e, w, c1, -⟩ := set_clock_spec bus s c
    simp only [Command.run, e, Option.some.injEq] at h
    subst h
    refine ⟨_, w, ?_, Or.inr ⟨?_, c1⟩⟩
    · intro x hx
      simp only [Command.stamped, List.mem_flatMap] at hx
      obtain ⟨w0, hw0, hx⟩ := hx
      simp only [full_update_writes_marker _ _ _ _ _ w0 hw0, List.mem_cons, List.mem_singleton,
        List.mem_nil_iff, or_false, or_self] at hx
      exact hx
    · intro hnil
      have := full_update_writes_length s._speed s._acceleration s._direction s._counter c
      rw [hnil] at this
      simp at this
  | set_digit index d =>
    simp only [Command.run, set_digit, Option.map_eq_some'] at h
    obtain ⟨s0, e, rfl⟩ := h
    obtain ⟨w, c1⟩ := send_digit_effect bus s s0 index d e
    refine ⟨_, by simpa using w, ?_, Or.inr ⟨by simp, increment_counter_congr c1⟩⟩
    intro x hx
    simp [Command.stamped, expand_marker] at hx
    exact hx
  | set_half_digit index half =>
    simp only [Command.run] at h
    obtain ⟨w, c1⟩ := set_half_digit_effect bus s s1 index half h
    refine ⟨_, w, ?_, Or.inr ⟨by simp, c1⟩⟩
    intro x hx
    simp [Command.stamped, expand_marker] at hx
    exact hx
  | set_clock_time hh mm =>
    simp only [Command.run] at h
    by_cases hr : hh < 0 ∨ hh > 99 ∨ mm < 0 ∨ mm > 99
    · unfold set_clock_time at h
      rw [if_pos hr] at h
      simp only [Option.some.injEq] at h
      subst h
      exact ⟨[], by simp, by simp [Command.stamped], Or.inl ⟨rfl, rfl⟩⟩
    · obtain ⟨c, s0, s2, -, e, -, w, c1, -⟩ :=
        set_clock_time_spec D bus s hh mm (by omega) (by omega)
      rw [e] at h
      simp only [Option.some.injEq] at h
      subst h
      refine ⟨_, w, ?_, Or.inr ⟨?_, c1⟩⟩
      · intro x hx
        simp only [Command.stamped, List.mem_flatMap] at hx
        obtain ⟨w0, hw0, hx⟩ := hx
        simp only [full_update_writes_marker _ _ _ _ _ w0 hw0, List.mem_cons,
          List.mem_singleton, List.mem_nil_iff, or_false, or_self] at hx
        exact hx
      · intro hnil
        have := full_update_writes_length s._speed s._acceleration s._direction s._counter c
        rw [hnil] at this
        simp at this
  | adjust_hands k dh dm =>
    simp only [Command.run] at h
    obtain ⟨slot, hand, -, eh, w, c1, -⟩ := adjust_hands_effect D bus s s1 k dh dm h
    refine ⟨_, w, ?_, Or.inr ⟨by simp, c1⟩⟩
    intro x hx
    simp [Command.stamped, eh, adjusted] at hx
    exact hx

theorem new_writes_eq {s s1 : ClockManager} {ws : List BusWrite}
    (h : s1.wire = s.wire ++ ws) : new_writes s s1 = ws := by
  unfold new_writes
  rw [h, List.drop_left]

/-- The counter of a reachable state is a non-zero 32-bit value. -/
theorem Reachable.counter_pos (D : Decls) (bus : Nat → Nat) (s : ClockManager)
    (h : Reachable D bus s) : s._counter ≠ 0 ∧ s._counter < 2 ^ 32 := by
  induction h with
  | init => exact ⟨by simp [ClockManager.init], by simp [ClockManager.init]⟩
  | step s s1 cmd _ hrun ih =>
    obtain ⟨ws, -, -, hc | hc⟩ := command_effect D bus s s1 cmd hrun
    · rw [hc.2]; exact ih
    · rw [hc.2]
      have := increment_counter_step s ih.2
      exact ⟨this.1, this.2.1⟩

/-- C1. Freshness counter invariant: from every 32-bit counter value,
`increment_counter` yields a non-zero 32-bit value that is larger, or is 1 when the
value was `2^32 - 1`; the counter is never 0 in a state reachable from the initial
one through the commands of the clock manager; and the markers stamped by two
successive commands of a reachable run differ, the later one being the larger or the
wrap-around to 1. -/
theorem freshness_counter_invariant (D : Decls) (bus : Nat → Nat) :
    (∀ s : ClockManager, s._counter < 2 ^ 32 →
        (increment_counter s)._counter ≠ 0
        ∧ (increment_counter s)._counter < 2 ^ 32
        ∧ (s._counter < (increment_counter s)._counter
            ∨ (s._counter = 2 ^ 32 - 1 ∧ (increment_counter s)._counter = 1)))
    ∧ (ClockManager.init D)._counter = 1
    ∧ (∀ s, Reachable D bus s → s._counter ≠ 0)
    ∧ (∀ s s1 s2 (a b : Command), Reachable D bus s →
        a.run D bus s = some s1 → b.run D bus s1 = some s2 →
        ∀ x ∈ a.stamped (new_writes s s1), ∀ y ∈ b.stamped (new_writes s1 s2),
          x ≠ y ∧ (x < y ∨ (x = 2 ^ 32 - 1 ∧ y = 1))) := by
  refine ⟨fun s h => increment_counter_step s h, rfl,
    fun s h => (Reachable.counter_pos D bus s h).1, ?_⟩
  intro s s1 s2 a b hs ha hb x hx y hy
  obtain ⟨wa, ea, ma, ca⟩ := command_effect D bus s s1 a ha
  obtain ⟨wb, eb, mb, -⟩ := command_effect D bus s1 s2 b hb
  rw [new_writes_eq ea] at hx
  rw [new_writes_eq eb] at hy
  have hx1 := ma x hx
  have hy1 := mb y hy
  have hwa : wa ≠ [] := by
    rintro rfl
    cases a <;> simp [Command.stamped] at hx
    split at hx <;> simp at hx
  rcases ca with ca | ca
  · exact absurd ca.1 hwa
  · have hstep := increment_counter_step s (Reachable.counter_pos D bus s hs).2
    rw [← ca.2] at hstep
    subst hx1 hy1
    refine ⟨?_, hstep.2.2⟩
    rcases hstep.2.2 with h | h
    · omega
    · omega

/-- Instance of C1: the initial counter, and the run `set_clock_time(10, 30)`,
`adjust_hands(3, 2, -1)` from the initial state, which stamps 1 and then 2. -/
theorem freshness_counter_invariant_witness :
    ((ClockManager.init sample_decls)._counter < 2 ^ 32
      ∧ (increment_counter (ClockManager.init sample_decls))._counter ≠ 0)
    ∧ (Reachable sample_decls bus_ok (ClockManager.init sample_decls)
      ∧ (Command.set_clock_time 10 30).run sample_decls bus_ok (ClockManager.init sample_decls)
          = some sample_shown
      ∧ (Command.adjust_hands 3 2 (-1)).run sample_decls bus_ok sample_shown
          = some sample_adjusted
      ∧ 1 ∈ (Command.set_clock_time 10 30).stamped
          (new_writes (ClockManager.init sample_decls) sample_shown)
      ∧ 2 ∈ (Command.adjust_hands 3 2 (-1)).stamped (new_writes sample_shown sample_adjusted)
      ∧ (1 ≠ 2 ∧ (1 < 2 ∨ (1 = 2 ^ 32 - 1 ∧ 2 = 1)))) :=
  ⟨⟨by decide,
     ((freshness_counter_invariant sample_decls bus_ok).1 (ClockManager.init sample_decls)
        (by decide)).1⟩,
   Reachable.init, rfl, rfl, by decide, by decide,
   (freshness_counter_invariant sample_decls bus_ok).2.2.2 (ClockManager.init sample_decls)
     sample_shown sample_adjusted (Command.set_clock_time 10 30) (Command.adjust_hands 3 2 (-1))
     Reachable.init rfl rfl 1 (by decide) 2 (by decide)⟩

/-! ## Rendering a time -/

/-- C2. Digit decomposition round trip: for `0 ≤ h, m ≤ 99` the four table indices
computed by `get_clock_state_from_time` are valid indices of the 10-entry table, the
returned display is built from exactly those table entries, and `10*d0 + d1 = h`,
`10*d2 + d3 = m`; the time (9, 5) gives the indices 0, 9, 0, 5. -/
theorem digit_decomposition_round_trip (D : Decls) (s : ClockManager) (h m : Int)
    (hh : 0 ≤ h ∧ h ≤ 99) (hm : 0 ≤ m ∧ m ≤ 99) :
    (∃ i0 i1 i2 i3 : Fin 10,
      digit_indices h m
          = (((i0.val : Nat) : Int), ((i1.val : Nat) : Int), ((i2.val : Nat) : Int),
             ((i3.val : Nat) : Int))
      ∧ (get_clock_state_from_time D s h m).map (fun r => r.1.digit)
          = some ![D._digits i0, D._digits i1, D._digits i2, D._digits i3]
      ∧ 10 * ((i0.val : Nat) : Int) + ((i1.val : Nat) : Int) = h
      ∧ 10 * ((i2.val : Nat) : Int) + ((i3.val : Nat) : Int) = m)
    ∧ digit_indices 9 5 = (0, 9, 0, 5) := by
  obtain ⟨i0, i1, i2, i3, v0, v1, v2, v3, e⟩ := get_clock_state_from_time_spec D s h m hh hm
  obtain ⟨-, -, -, -, rh, rm⟩ := digit_indices_spec h m hh hm
  refine ⟨⟨i0, i1, i2, i3, ?_, ?_, ?_, ?_⟩, by decide⟩
  · rw [v0, v1, v2, v3]
  · rw [e]; rfl
  · rw [v0, v1]; exact rh
  · rw [v2, v3]; exact rm

/-- Instance of C2 at the time 9:05. -/
theorem digit_decomposition_round_trip_witness :
    ((0 : Int) ≤ 9 ∧ (9 : Int) ≤ 99) ∧ ((0 : Int) ≤ 5 ∧ (5 : Int) ≤ 99)
    ∧ ((∃ i0 i1 i2 i3 : Fin 10,
      digit_indices 9 5
          = (((i0.val : Nat) : Int), ((i1.val : Nat) : Int), ((i2.val : Nat) : Int),
             ((i3.val : Nat) : Int))
      ∧ (get_clock_state_from_time sample_decls (ClockManager.init sample_decls) 9 5).map
            (fun r => r.1.digit)
          = some ![sample_decls._digits i0, sample_decls._digits i1, sample_decls._digits i2,
                   sample_decls._digits i3]
      ∧ 10 * ((i0.val : Nat) : Int) + ((i1.val : Nat) : Int) = 9
      ∧ 10 * ((i2.val : Nat) : Int) + ((i3.val : Nat) : Int) = 5)
    ∧ digit_indices 9 5 = (0, 9, 0, 5)) :=
  ⟨by decide, by decide,
    digit_decomposition_round_trip sample_decls (ClockManager.init sample_decls) 9 5
      (by decide) (by decide)⟩

/-- C3. Out-of-range time is rejected as a no-op: when `h` or `m` is outside
`0..99`, `set_clock_time` returns the state it was given (no transmission, same
counter, profile, cache and console); when both are in range it performs
`set_clock` on the rendered time, which transmits the 8 HandPairs of a full display
update, stores them in the cache and advances the counter. -/
theorem set_clock_time_range_check (D : Decls) (bus : Nat → Nat) (s : ClockManager)
    (h m : Int) :
    ((h < 0 ∨ h > 99 ∨ m < 0 ∨ m > 99) → set_clock_time D bus s h m = some s)
    ∧ ((0 ≤ h ∧ h ≤ 99) → (0 ≤ m ∧ m ≤ 99) →
        ∃ c s0 s1, get_clock_state_from_time D s h m = some (c, s0)
          ∧ set_clock_time D bus s h m = some s1
          ∧ set_clock bus s0 c = some s1
          ∧ new_writes s s1
              = full_update_writes s._speed s._acceleration s._direction s._counter c
          ∧ (new_writes s s1).length = 8
          ∧ s1._counter = (increment_counter s)._counter
          ∧ ∀ j : Fin 8, s1._last_state j
              = expand s._speed s._acceleration s._direction s._counter (half_of c j)) := by
  constructor
  · intro hr
    unfold set_clock_time
    rw [if_pos hr]
  · intro hh hm
    obtain ⟨c, s0, s1, e0, e1, e2, w, c1, -, -, -, l⟩ := set_clock_time_spec D bus s h m hh hm
    refine ⟨c, s0, s1, e0, e1, e2, new_writes_eq w, ?_, c1, l⟩
    rw [new_writes_eq w, full_update_writes_length]

/-- Instance of C3: the time 100:00 is rejected, the time 10:30 is shown. -/
theorem set_clock_time_range_check_witness :
    ((100 : Int) < 0 ∨ (100 : Int) > 99 ∨ (0 : Int) < 0 ∨ (0 : Int) > 99)
    ∧ set_clock_time sample_decls bus_ok (ClockManager.init sample_decls) 100 0
        = some (ClockManager.init sample_decls)
    ∧ ((0 : Int) ≤ 10 ∧ (10 : Int) ≤ 99) ∧ ((0 : Int) ≤ 30 ∧ (30 : Int) ≤ 99)
    ∧ ∃ c s0 s1,
        get_clock_state_from_time sample_decls (ClockManager.init sample_decls) 10 30
          = some (c, s0)
        ∧ set_clock_time sample_decls bus_ok (ClockManager.init sample_decls) 10 30 = some s1
        ∧ set_clock bus_ok s0 c = some s1
        ∧ new_writes (ClockManager.init sample_decls) s1
            = full_update_writes (ClockManager.init sample_decls)._speed
                (ClockManager.init sample_decls)._acceleration
                (ClockManager.init sample_decls)._direction
                (ClockManager.init sample_decls)._counter c
        ∧ (new_writes (ClockManager.init sample_decls) s1).length = 8
        ∧ s1._counter = (increment_counter (ClockManager.init sample_decls))._counter
        ∧ ∀ j : Fin 8, s1._last_state j
            = expand (ClockManager.init sample_decls)._speed
                (ClockManager.init sample_decls)._acceleration
                (ClockManager.init sample_decls)._direction
                (ClockManager.init sample_decls)._counter (half_of c j) :=
  ⟨by decide,
   (set_clock_time_range_check sample_decls bus_ok (ClockManager.init sample_decls) 100 0).1
     (by decide),
   by decide, by decide,
   (set_clock_time_range_check sample_decls bus_ok (ClockManager.init sample_decls) 10 30).2
     (by decide) (by decide)⟩

/-- C4. Failure independence and order of a full display update: for an in-range
time and any two assignments `bus1`, `bus2` of error codes to the transmissions,
`set_clock_time` completes, attempts exactly 8 bus writes, to the addresses
1, 2, ..., 8 in this order, and the transmissions (addresses and payloads), the
counter, the profile and the cache after the call are the same under both; only
the console log records which writes failed. -/
theorem full_update_failure_independence (D : Decls) (s : ClockManager) (h m : Int)
    (hh : 0 ≤ h ∧ h ≤ 99) (hm : 0 ≤ m ∧ m ≤ 99) (bus1 bus2 : Nat → Nat) :
    ∃ s1 s2, set_clock_time D bus1 s h m = some s1 ∧ set_clock_time D bus2 s h m = some s2
      ∧ (new_writes s s1).length = 8
      ∧ (new_writes s s1).map (fun w => w.address) = [1, 2, 3, 4, 5, 6, 7, 8]
      ∧ new_writes s s1 = new_writes s s2
      ∧ s1.wire = s2.wire
      ∧ s1._counter = s2._counter ∧ s1._last_state = s2._last_state
      ∧ s1._speed = s2._speed ∧ s1._acceleration = s2._acceleration
      ∧ s1._direction = s2._direction := by
  obtain ⟨c, s0, s1, e0, e1, -, w1, c1, p1, q1, r1, l1⟩ :=
    set_clock_time_spec D bus1 s h m hh hm
  obtain ⟨c', s0', s2, e0', e2, -, w2, c2, p2, q2, r2, l2⟩ :=
    set_clock_time_spec D bus2 s h m hh hm
  rw [e0] at e0'
  simp only [Option.some.injEq, Prod.mk.injEq] at e0'
  obtain ⟨rfl, -⟩ := e0'
  refine ⟨s1, s2, e1, e2, ?_, ?_, ?_, ?_, by rw [c1, c2], ?_, by rw [p1, p2], by rw [q1, q2],
    by rw [r1, r2]⟩
  · rw [new_writes_eq w1, full_update_writes_length]
  · rw [new_writes_eq w1, full_update_writes_address]
  · rw [new_writes_eq w1, new_writes_eq w2]
  · rw [w1, w2]
  · funext j
    rw [l1, l2]

/-- Instance of C4 at the time 10:30, on a healthy bus and on one where no
peripheral acknowledges. -/
theorem full_update_failure_independence_witness :
    ((0 : Int) ≤ 10 ∧ (10 : Int) ≤ 99) ∧ ((0 : Int) ≤ 30 ∧ (30 : Int) ≤ 99)
    ∧ ∃ s1 s2,
      set_clock_time sample_decls bus_ok (ClockManager.init sample_decls) 10 30 = some s1
      ∧ set_clock_time sample_decls bus_nack (ClockManager.init sample_decls) 10 30 = some s2
      ∧ (new_writes (ClockManager.init sample_decls) s1).length = 8
      ∧ (new_writes (ClockManager.init sample_decls) s1).map (fun w => w.address)
          = [1, 2, 3, 4, 5, 6, 7, 8]
      ∧ new_writes (ClockManager.init sample_decls) s1
          = new_writes (ClockManager.init sample_decls) s2
      ∧ s1.wire = s2.wire
      ∧ s1._counter = s2._counter ∧ s1._last_state = s2._last_state
      ∧ s1._speed = s2._speed ∧ s1._acceleration = s2._acceleration
      ∧ s1._direction = s2._direction :=
  ⟨by decide, by decide,
   full_update_failure_independence sample_decls (ClockManager.init sample_decls) 10 30
     (by decide) (by decide) bus_ok bus_nack⟩

/-- C5. One marker generation per full display update: for an in-range time,
`set_clock_time` transmits 8 HandPairs that all carry the counter value of before
the call on all three hands, the counter afterwards is one `increment_counter` step
past that value, and cache entry `j` equals the HandPair transmitted to slot `j`
(address `j + 1`) for every `j` in `0..7`. -/
theorem full_update_single_marker (D : Decls) (bus : Nat → Nat) (s : ClockManager)
    (h m : Int) (hh : 0 ≤ h ∧ h ≤ 99) (hm : 0 ≤ m ∧ m ≤ 99) :
    ∃ s1, set_clock_time D bus s h m = some s1
      ∧ (new_writes s s1).length = 8
      ∧ (∀ w ∈ new_writes s s1, ∀ i : Fin 3, w.payload.change_counter i = s._counter)
      ∧ s1._counter = (increment_counter s)._counter
      ∧ ∀ j : Fin 8, ∃ w, (new_writes s s1)[j.val]? = some w
          ∧ w.address = j.val + 1 ∧ s1._last_state j = w.payload := by
  obtain ⟨c, s0, s1, -, e1, -, w1, c1, -, -, -, l1⟩ := set_clock_time_spec D bus s h m hh hm
  refine ⟨s1, e1, ?_, ?_, c1, ?_⟩
  · rw [new_writes_eq w1, full_update_writes_length]
  · intro w hw i
    rw [new_writes_eq w1] at hw
    exact full_update_writes_marker _ _ _ _ _ w hw i
  · intro j
    rw [new_writes_eq w1]
    exact ⟨_, full_update_writes_get _ _ _ _ c j, rfl, l1 j⟩

/-- Instance of C5 at the time 10:30 from the initial state. -/
theorem full_update_single_marker_witness :
    ((0 : Int) ≤ 10 ∧ (10 : Int) ≤ 99) ∧ ((0 : Int) ≤ 30 ∧ (30 : Int) ≤ 99)
    ∧ ∃ s1, set_clock_time sample_decls bus_ok (ClockManager.init sample_decls) 10 30 = some s1
      ∧ (new_writes (ClockManager.init sample_decls) s1).length = 8
      ∧ (∀ w ∈ new_writes (ClockManager.init sample_decls) s1, ∀ i : Fin 3,
            w.payload.change_counter i = (ClockManager.init sample_decls)._counter)
      ∧ s1._counter = (increment_counter (ClockManager.init sample_decls))._counter
      ∧ ∀ j : Fin 8, ∃ w, (new_writes (ClockManager.init sample_decls) s1)[j.val]? = some w
          ∧ w.address = j.val + 1 ∧ s1._last_state j = w.payload :=
  ⟨by decide, by decide,
   full_update_single_marker sample_decls bus_ok (ClockManager.init sample_decls) 10 30
     (by decide) (by decide)⟩

/-! ## Stopping the display -/

/-- C8. `stop()` is idempotent: from any state it completes in a state where a
second `stop()` changes nothing at all (flags, profile, counter, cache, bus log and
console); from a non-stopped state the first call sets the direction-mode to
`MIN_DISTANCE`, the speed to 200, the acceleration to 100, `last_hour` and
`last_minute` to -1, and transmits exactly the 8 HandPairs of one full display
update with the stop pattern; a call while `is_stopped` is true returns the state
unchanged. -/
theorem stop_idempotent (D : Decls) (bus : Nat → Nat) (s : Main) :
    ∃ s1, stop D bus s = some s1 ∧ stop D bus s1 = some s1
      ∧ s1.is_stopped = true
      ∧ (s.is_stopped = false →
          s1.cm._direction = D.MIN_DISTANCE ∧ s1.cm._speed = 200 ∧ s1.cm._acceleration = 100
          ∧ s1.last_hour = -1 ∧ s1.last_minute = -1
          ∧ new_writes s.cm s1.cm
              = full_update_writes 200 100 D.MIN_DISTANCE s.cm._counter D.d_stop
          ∧ (new_writes s.cm s1.cm).length = 8
          ∧ s1.cm._counter = (increment_counter s.cm)._counter
          ∧ ∀ j : Fin 8, s1.cm._last_state j
              = expand 200 100 D.MIN_DISTANCE s.cm._counter (half_of D.d_stop j))
      ∧ (s.is_stopped = true → s1 = s) := by
  cases hst : s.is_stopped with
  | true =>
    have e : stop D bus s = some s := by
      unfold stop
      simp [hst]
    exact ⟨s, e, e, hst, by simp, fun _ => rfl⟩
  | false =>
    obtain ⟨cm4, e, w, c1, p, q, r, l⟩ :=
      set_clock_spec bus
        (set_acceleration (set_speed (set_direction s.cm D.MIN_DISTANCE) 200) 100) D.d_stop
    have hw : cm4.wire
        = s.cm.wire ++ full_update_writes 200 100 D.MIN_DISTANCE s.cm._counter D.d_stop := w
    refine ⟨{ last_hour := -1, last_minute := -1, is_stopped := true, cm := cm4 }, ?_, ?_,
      rfl, ?_, by simp⟩
    · unfold stop
      simp only [hst, Bool.not_false, if_true]
      rw [e]
      rfl
    · unfold stop
      simp
    · intro _
      refine ⟨r, p, q, rfl, rfl, new_writes_eq hw, ?_, ?_, l⟩
      · rw [new_writes_eq hw, full_update_writes_length]
      · exact c1.trans (increment_counter_congr rfl)

/-- Instance of C8 from the initial (non-stopped) state and from a state whose
`is_stopped` flag is set. -/
theorem stop_idempotent_witness :
    (Main.init sample_decls).is_stopped = false
    ∧ ({ Main.init sample_decls with is_stopped := true } : Main).is_stopped = true
    ∧ (∃ s1, stop sample_decls bus_ok (Main.init sample_decls) = some s1
        ∧ stop sample_decls bus_ok s1 = some s1
        ∧ (new_writes (Main.init sample_decls).cm s1.cm).length = 8)
    ∧ stop sample_decls bus_ok { Main.init sample_decls with is_stopped := true }
        = some { Main.init sample_decls with is_stopped := true } := by
  refine ⟨rfl, rfl, ?_, ?_⟩
  · obtain ⟨s1, e1, e2, -, h, -⟩ := stop_idempotent sample_decls bus_ok (Main.init sample_decls)
    exact ⟨s1, e1, e2, (h rfl).2.2.2.2.2.2.1⟩
  · obtain ⟨s1, e1, -, -, -, h⟩ :=
      stop_idempotent sample_decls bus_ok { Main.init sample_decls with is_stopped := true }
    rw [e1, h rfl]

/-! ## Manual adjust -/

/-- C9, as the claim states it, fails: `adjust_hands(0, 200, 0)` from the initial
state transmits `adjust_h = -56` for the targeted hand, not the given offset 200. -/
theorem adjust_hands_offset_counterexample :
    ∃ s1 w, adjust_hands sample_decls bus_ok (ClockManager.init sample_decls) 0 200 0 = some s1
      ∧ new_writes (ClockManager.init sample_decls) s1 = [w]
      ∧ (w.payload.clocks 0).adjust_h = -56
      ∧ (w.payload.clocks 0).adjust_h ≠ 200 :=
  ⟨_, _, rfl, rfl, by decide, by decide⟩

/-- C9, amended. Manual adjust preserves sibling hands: for `0 ≤ k ≤ 23`,
`adjust_hands(k, dh, dm)` transmits exactly one HandPair, to address `k/3 + 1`
(in `1..8`); its two hands other than hand `k%3` equal those of cache entry `k/3`
in every field; hand `k%3` keeps its cached angles and gets mode `ADJUST_HAND`,
speed 5000, acceleration 5000 and the offsets converted to `signed char`
(`dh`, `dm` themselves when they lie in `-128..127`); the counter advances once. -/
theorem adjust_hands_preserves_siblings (D : Decls) (bus : Nat → Nat) (s : ClockManager)
    (k dh dm : Int) (hk : 0 ≤ k ∧ k ≤ 23) :
    ∃ slot : Fin 8, ∃ hand : Fin 3, ∃ s1 w,
      ((slot.val : Nat) : Int) = k / 3 ∧ ((hand.val : Nat) : Int) = k % 3
      ∧ adjust_hands D bus s k dh dm = some s1
      ∧ new_writes s s1 = [w]
      ∧ ((w.address : Nat) : Int) = k / 3 + 1 ∧ 1 ≤ w.address ∧ w.address ≤ 8
      ∧ (∀ i : Fin 3, i ≠ hand → w.payload.clocks i = (s._last_state slot).clocks i)
      ∧ (w.payload.clocks hand).angle_h = ((s._last_state slot).clocks hand).angle_h
      ∧ (w.payload.clocks hand).angle_m = ((s._last_state slot).clocks hand).angle_m
      ∧ (w.payload.clocks hand).mode_h = D.ADJUST_HAND
      ∧ (w.payload.clocks hand).mode_m = D.ADJUST_HAND
      ∧ (w.payload.clocks hand).speed_h = 5000 ∧ (w.payload.clocks hand).speed_m = 5000
      ∧ (w.payload.clocks hand).accel_h = 5000 ∧ (w.payload.clocks hand).accel_m = 5000
      ∧ (w.payload.clocks hand).adjust_h = signed_char dh
      ∧ (w.payload.clocks hand).adjust_m = signed_char dm
      ∧ (-128 ≤ dh ∧ dh ≤ 127 → (w.payload.clocks hand).adjust_h = dh)
      ∧ (-128 ≤ dm ∧ dm ≤ 127 → (w.payload.clocks hand).adjust_m = dm)
      ∧ s1._counter = (increment_counter s)._counter := by
  obtain ⟨slot, hand, s1, vs, vh, e, w, c1, -⟩ := adjust_hands_spec D bus s k dh dm hk
  refine ⟨slot, hand, s1, _, vs, vh, e, new_writes_eq w, ?_, ?_, ?_, ?_, ?_, ?_, ?_, ?_, ?_, ?_,
    ?_, ?_, ?_, ?_, ?_, ?_, c1⟩
  · simp only []; push_cast; omega
  · simp
  · have := slot.isLt
    simp only []; omega
  · intro i hi
    simp [adjusted, Function.update_noteq hi]
  all_goals try simp [adjusted]
  · intro h; unfold signed_char; omega
  · intro h; unfold signed_char; omega

/-- Instance of C9 (amended): `adjust_hands(3, 2, -1)` after showing 10:30. -/
theorem adjust_hands_preserves_siblings_witness :
    ((0 : Int) ≤ 3 ∧ (3 : Int) ≤ 23)
    ∧ ∃ slot : Fin 8, ∃ hand : Fin 3, ∃ s1 w,
      ((slot.val : Nat) : Int) = 3 / 3 ∧ ((hand.val : Nat) : Int) = 3 % 3
      ∧ adjust_hands sample_decls bus_ok sample_shown 3 2 (-1) = some s1
      ∧ new_writes sample_shown s1 = [w]
      ∧ ((w.address : Nat) : Int) = 3 / 3 + 1 ∧ 1 ≤ w.address ∧ w.address ≤ 8
      ∧ (∀ i : Fin 3, i ≠ hand →
          w.payload.clocks i = (sample_shown._last_state slot).clocks i)
      ∧ (w.payload.clocks hand).angle_h = ((sample_shown._last_state slot).clocks hand).angle_h
      ∧ (w.payload.clocks hand).angle_m = ((sample_shown._last_state slot).clocks hand).angle_m
      ∧ (w.payload.clocks hand).mode_h = sample_decls.ADJUST_HAND
      ∧ (w.payload.clocks hand).mode_m = sample_decls.ADJUST_HAND
      ∧ (w.payload.clocks hand).speed_h = 5000 ∧ (w.payload.clocks hand).speed_m = 5000
      ∧ (w.payload.clocks hand).accel_h = 5000 ∧ (w.payload.clocks hand).accel_m = 5000
      ∧ (w.payload.clocks hand).adjust_h = signed_char 2
      ∧ (w.payload.clocks hand).adjust_m = signed_char (-1)
      ∧ (-128 ≤ (2 : Int) ∧ (2 : Int) ≤ 127 → (w.payload.clocks hand).adjust_h = 2)
      ∧ (-128 ≤ (-1 : Int) ∧ (-1 : Int) ≤ 127 → (w.payload.clocks hand).adjust_m = -1)
      ∧ s1._counter = (increment_counter sample_shown)._counter :=
  ⟨by decide,
   adjust_hands_preserves_siblings sample_decls bus_ok sample_shown 3 2 (-1) (by decide)⟩

/-- C10 on the code: `adjust_hands(3, 2, -1)` after showing 10:30 transmits to
slot 1 a HandPair whose hand 0 has mode `ADJUST_HAND` and speed 5000, while cache
entry 1 is left as the full display update wrote it (mode `MIN_DISTANCE`, speed
200): the cache entry differs from the HandPair just transmitted. -/
theorem adjust_hands_leaves_cache :
    adjust_hands sample_decls bus_ok sample_shown 3 2 (-1) = some sample_adjusted
    ∧ sample_adjusted._last_state = sample_shown._last_state
    ∧ ∃ w, new_writes sample_shown sample_adjusted = [w]
      ∧ w.address = 2
      ∧ (w.payload.clocks 0).mode_h = 4 ∧ (w.payload.clocks 0).speed_h = 5000
      ∧ ((sample_adjusted._last_state 1).clocks 0).mode_h = 2
      ∧ ((sample_adjusted._last_state 1).clocks 0).speed_h = 200
      ∧ sample_adjusted._last_state 1 ≠ w.payload := by
  refine ⟨rfl, rfl, _, rfl, rfl, rfl, rfl, rfl, rfl, ?_⟩
  intro h
  have h2 := congrArg (fun p => (p.clocks 0).speed_h) h
  revert h2
  decide

/-! ## Time synchronisation -/

/-- The big-endian value of four bytes is what the shifts and ORs of `tick_NTP`
compute. -/
theorem secs_since_1900_eq (buf : Fin 48 → Nat) (h : ∀ i, buf i < 256) :
    secs_since_1900 buf = buf 40 * 2 ^ 24 + buf 41 * 2 ^ 16 + buf 42 * 2 ^ 8 + buf 43 := by
  have h40 := h 40
  have h41 := h 41
  have h42 := h 42
  have h43 := h 43
  unfold secs_since_1900
  simp only [Nat.shiftLeft_eq]
  rw [Nat.mod_eq_of_lt (by omega), Nat.mod_eq_of_lt (by omega), Nat.mod_eq_of_lt (by omega)]
  have e1 : buf 40 * 2 ^ 24 ||| buf 41 * 2 ^ 16 = 2 ^ 16 * (buf 40 * 2 ^ 8 + buf 41) := by
    have := Nat.mul_add_lt_is_or (i := 24) (b := buf 41 * 2 ^ 16) (by omega) (buf 40)
    rw [show buf 40 * 2 ^ 24 = 2 ^ 24 * buf 40 by ring, ← this]
    ring
  have e2 : 2 ^ 16 * (buf 40 * 2 ^ 8 + buf 41) ||| buf 42 * 2 ^ 8
      = 2 ^ 8 * ((buf 40 * 2 ^ 8 + buf 41) * 2 ^ 8 + buf 42) := by
    have := Nat.mul_add_lt_is_or (i := 16) (b := buf 42 * 2 ^ 8) (by omega)
      (buf 40 * 2 ^ 8 + buf 41)
    rw [← this]
    ring
  have e3 : 2 ^ 8 * ((buf 40 * 2 ^ 8 + buf 41) * 2 ^ 8 + buf 42) ||| buf 43
      = 2 ^ 8 * ((buf 40 * 2 ^ 8 + buf 41) * 2 ^ 8 + buf 42) + buf 43 :=
    (Nat.mul_add_lt_is_or (i := 8) (b := buf 43) (by omega) _).symm
  rw [e1, e2, e3]
  ring

/-- The effect of `tick_NTP` in WAITING_RESPONSE when the next datagram has at least
48 bytes. -/
theorem tick_NTP_response (time_t : Int → Int) (s : Ntp) (millis : Nat) (dns : Option Nat)
    (pkt : List Nat) (rest : List (List Nat)) (hstate : s._ntp_state ≠ 0)
    (hin : s.inbox = pkt :: rest) (hlen : 48 ≤ pkt.length) :
    (tick_NTP time_t s millis dns).sysTime
        = time_t ((sub_u32 (secs_since_1900 (fun i => pkt.getD i.val 0 % 256)) 2208988800 : Nat)
            + s._time_zone * SECS_PER_HOUR)
      ∧ (tick_NTP time_t s millis dns)._ntp_last_sync_ms = millis % 2 ^ 32
      ∧ (tick_NTP time_t s millis dns)._ntp_state = 0
      ∧ (tick_NTP time_t s millis dns).inbox = rest
      ∧ (tick_NTP time_t s millis dns).sent = s.sent
      ∧ (tick_NTP time_t s millis dns).lookups = s.lookups
      ∧ (tick_NTP time_t s millis dns)._time_zone = s._time_zone := by
  unfold tick_NTP
  simp only [if_neg hstate, parsePacket, hin, NTP_PACKET_SIZE]
  rw [if_pos (by exact hlen)]
  exact ⟨rfl, rfl, rfl, rfl, rfl, rfl, rfl⟩

/-- C6. Time conversion on a received response: when `tick_NTP` runs in
WAITING_RESPONSE and the next datagram has at least 48 bytes, with `V` the
big-endian value of its bytes 40..43, `V ≥ 2208988800` and
`V - 2208988800 + timezone * 3600` in the range `0 .. 2^31 - 1` that every `time_t`
represents unchanged, the committed wall-clock time is
`V - 2208988800 + timezone * 3600`, `last_sync_ms` becomes `now_ms` and the state
returns to IDLE. -/
theorem tick_NTP_time_conversion (time_t : Int → Int) (s : Ntp) (millis : Nat)
    (dns : Option Nat) (pkt : List Nat) (rest : List (List Nat)) (V : Nat)
    (ht : ∀ x : Int, 0 ≤ x → x < 2 ^ 31 → time_t x = x)
    (hstate : s._ntp_state ≠ 0) (hin : s.inbox = pkt :: rest) (hlen : 48 ≤ pkt.length)
    (hV : V = pkt.getD 40 0 % 256 * 2 ^ 24 + pkt.getD 41 0 % 256 * 2 ^ 16
            + pkt.getD 42 0 % 256 * 2 ^ 8 + pkt.getD 43 0 % 256)
    (hge : 2208988800 ≤ V)
    (hlo : 0 ≤ (V : Int) - 2208988800 + s._time_zone * 3600)
    (hhi : (V : Int) - 2208988800 + s._time_zone * 3600 < 2 ^ 31) :
    (tick_NTP time_t s millis dns).sysTime = (V : Int) - 2208988800 + s._time_zone * 3600
      ∧ (tick_NTP time_t s millis dns)._ntp_last_sync_ms = millis % 2 ^ 32
      ∧ (tick_NTP time_t s millis dns)._ntp_state = 0 := by
  obtain ⟨e, l, st, -⟩ := tick_NTP_response time_t s millis dns pkt rest hstate hin hlen
  refine ⟨?_, l, st⟩
  rw [e, secs_since_1900_eq _ (fun i => Nat.mod_lt _ (by decide))]
  have hV' : pkt.getD ((40 : Fin 48) : Nat) 0 % 256 * 2 ^ 24
      + pkt.getD ((41 : Fin 48) : Nat) 0 % 256 * 2 ^ 16
      + pkt.getD ((42 : Fin 48) : Nat) 0 % 256 * 2 ^ 8
      + pkt.getD ((43 : Fin 48) : Nat) 0 % 256 = V := hV.symm
  rw [hV']
  have hlt : V < 2 ^ 32 := by
    have a := Nat.mod_lt (pkt.getD 40 0) (show 256 > 0 by decide)
    have b := Nat.mod_lt (pkt.getD 41 0) (show 256 > 0 by decide)
    have c := Nat.mod_lt (pkt.getD 42 0) (show 256 > 0 by decide)
    have d := Nat.mod_lt (pkt.getD 43 0) (show 256 > 0 by decide)
    omega
  have hsub : ((sub_u32 V 2208988800 : Nat) : Int) = (V : Int) - 2208988800 := by
    unfold sub_u32
    omega
  rw [hsub]
  unfold SECS_PER_HOUR
  exact ht _ hlo hhi

/-- Instance of C6: seconds field 3913056000, timezone +1, a 32-bit unsigned
`time_t`, tick at `millis() = 5000`. -/
theorem tick_NTP_time_conversion_witness :
    (∀ x : Int, 0 ≤ x → x < 2 ^ 31 → time_t_unsigned32 x = x)
    ∧ sample_waiting._ntp_state ≠ 0
    ∧ sample_waiting.inbox = sample_response 0xE9 0x3C 0x7F 0x00 :: []
    ∧ 48 ≤ (sample_response 0xE9 0x3C 0x7F 0x00).length
    ∧ 2208988800 ≤ 3913056000
    ∧ (tick_NTP time_t_unsigned32 sample_waiting 5000 none).sysTime
        = ((3913056000 : Nat) : Int) - 2208988800 + sample_waiting._time_zone * 3600
    ∧ (tick_NTP time_t_unsigned32 sample_waiting 5000 none)._ntp_last_sync_ms = 5000 % 2 ^ 32
    ∧ (tick_NTP time_t_unsigned32 sample_waiting 5000 none)._ntp_state = 0 :=
  ⟨fun x h0 h1 => by unfold time_t_unsigned32; omega, by decide, rfl, by decide, by decide,
   tick_NTP_time_conversion time_t_unsigned32 sample_waiting 5000 none
     (sample_response 0xE9 0x3C 0x7F 0x00) [] 3913056000
     (fun x h0 h1 => by unfold time_t_unsigned32; omega) (by decide) rfl (by decide)
     (by decide) (by decide) (by decide) (by decide)⟩

/-- C7, as the claim states it, fails: with seconds field 3913056000 and timezone
+1 the time committed by `tick_NTP` is 1704070800, not 1707820800, for a 32-bit
unsigned and for a 64-bit signed `time_t`. -/
theorem tick_NTP_scenario_counterexample :
    (tick_NTP time_t_unsigned32 sample_waiting 5000 none).sysTime = 1704070800
    ∧ (tick_NTP time_t_signed64 sample_waiting 5000 none).sysTime = 1704070800
    ∧ (tick_NTP time_t_unsigned32 sample_waiting 5000 none).sysTime ≠ 1707820800
    ∧ (tick_NTP time_t_signed64 sample_waiting 5000 none).sysTime ≠ 1707820800 := by
  decide

/-- C7, amended. Conversion scenario: for a response whose seconds-since-epoch
field is 3913056000 and a timezone offset of +1 hour, the Unix time committed by
`tick_NTP` is `3913056000 - 2208988800 + 3600 = 1704070800`. -/
theorem tick_NTP_scenario (time_t : Int → Int) (s : Ntp) (millis : Nat) (dns : Option Nat)
    (pkt : List Nat) (rest : List (List Nat))
    (ht : ∀ x : Int, 0 ≤ x → x < 2 ^ 31 → time_t x = x)
    (hstate : s._ntp_state ≠ 0) (hin : s.inbox = pkt :: rest) (hlen : 48 ≤ pkt.length)
    (hV : pkt.getD 40 0 % 256 * 2 ^ 24 + pkt.getD 41 0 % 256 * 2 ^ 16
            + pkt.getD 42 0 % 256 * 2 ^ 8 + pkt.getD 43 0 % 256 = 3913056000)
    (htz : s._time_zone = 1) :
    (tick_NTP time_t s millis dns).sysTime = 1704070800 := by
  obtain ⟨e, -⟩ := tick_NTP_response time_t s millis dns pkt rest hstate hin hlen
  rw [e, secs_since_1900_eq _ (fun i => Nat.mod_lt _ (by decide))]
  have hV' : pkt.getD ((40 : Fin 48) : Nat) 0 % 256 * 2 ^ 24
      + pkt.getD ((41 : Fin 48) : Nat) 0 % 256 * 2 ^ 16
      + pkt.getD ((42 : Fin 48) : Nat) 0 % 256 * 2 ^ 8
      + pkt.getD ((43 : Fin 48) : Nat) 0 % 256 = 3913056000 := hV
  rw [hV', htz]
  have hsub : ((sub_u32 3913056000 2208988800 : Nat) : Int) + 1 * SECS_PER_HOUR = 1704070800 := by
    decide
  rw [hsub]
  exact ht _ (by decide) (by decide)

/-- Instance of C7 (amended) with a 64-bit signed `time_t`. -/
theorem tick_NTP_scenario_witness :
    (∀ x : Int, 0 ≤ x → x < 2 ^ 31 → time_t_signed64 x = x)
    ∧ sample_waiting._ntp_state ≠ 0
    ∧ sample_waiting.inbox = sample_response 0xE9 0x3C 0x7F 0x00 :: []
    ∧ 48 ≤ (sample_response 0xE9 0x3C 0x7F 0x00).length
    ∧ sample_waiting._time_zone = 1
    ∧ (tick_NTP time_t_signed64 sample_waiting 7000 (some 1)).sysTime = 1704070800 :=
  ⟨fun x h0 h1 => by unfold time_t_signed64; omega, by decide, rfl, by decide, rfl,
   tick_NTP_scenario time_t_signed64 sample_waiting 7000 (some 1)
     (sample_response 0xE9 0x3C 0x7F 0x00) [] (fun x h0 h1 => by unfold time_t_signed64; omega)
     (by decide) rfl (by decide) (by decide) rfl⟩

/-! ## Manual adjust: offsets, range, markers -/

/-- C11, as the claim states it, fails: after showing 10:30,
`adjust_hands(5, 200, -300)` transmits `adjust_h = -56` and `adjust_m = -44` for
the targeted hand, while the clamped offsets are 127 and -128. -/
theorem adjust_hands_clamp_counterexample :
    ∃ s1 w, adjust_hands sample_decls bus_ok sample_shown 5 200 (-300) = some s1
      ∧ new_writes sample_shown s1 = [w]
      ∧ (w.payload.clocks 2).adjust_h = -56 ∧ (w.payload.clocks 2).adjust_m = -44
      ∧ clamp_signed_char 200 = 127 ∧ clamp_signed_char (-300) = -128
      ∧ (w.payload.clocks 2).adjust_h ≠ clamp_signed_char 200
      ∧ (w.payload.clocks 2).adjust_m ≠ clamp_signed_char (-300) :=
  ⟨_, _, rfl, rfl, by decide, by decide, by decide, by decide, by decide, by decide⟩

/-- C11, amended. Adjust offsets are converted, not clamped: for `0 ≤ k ≤ 23` and
all integers `h_amount`, `m_amount`, the `adjust_h` and `adjust_m` that
`adjust_hands` writes into the targeted hand of the transmitted HandPair are the
inputs converted to `signed char`: the value in `-128..127` congruent to the input
modulo 256. It is the input itself, and so the clamped input, exactly when the
input lies in `-128..127`; an offset of 200 is transmitted as -56. -/
theorem adjust_hands_offsets_converted (D : Decls) (bus : Nat → Nat) (s : ClockManager)
    (k h_amount m_amount : Int) (hk : 0 ≤ k ∧ k ≤ 23) :
    (∃ hand : Fin 3, ∃ s1 w, ((hand.val : Nat) : Int) = k % 3
      ∧ adjust_hands D bus s k h_amount m_amount = some s1
      ∧ new_writes s s1 = [w]
      ∧ (w.payload.clocks hand).adjust_h = signed_char h_amount
      ∧ (w.payload.clocks hand).adjust_m = signed_char m_amount)
    ∧ (-128 ≤ signed_char h_amount ∧ signed_char h_amount ≤ 127
        ∧ (signed_char h_amount - h_amount) % 256 = 0)
    ∧ (-128 ≤ signed_char m_amount ∧ signed_char m_amount ≤ 127
        ∧ (signed_char m_amount - m_amount) % 256 = 0)
    ∧ (signed_char h_amount = h_amount ↔ -128 ≤ h_amount ∧ h_amount ≤ 127)
    ∧ (signed_char m_amount = m_amount ↔ -128 ≤ m_amount ∧ m_amount ≤ 127)
    ∧ (-128 ≤ h_amount ∧ h_amount ≤ 127 → signed_char h_amount = clamp_signed_char h_amount)
    ∧ (-128 ≤ m_amount ∧ m_amount ≤ 127 → signed_char m_amount = clamp_signed_char m_amount)
    ∧ signed_char 200 = -56 := by
  obtain ⟨slot, hand, s1, -, vh, e, w, -⟩ := adjust_hands_spec D bus s k h_amount m_amount hk
  refine ⟨⟨hand, s1, _, vh, e, new_writes_eq w, by simp [adjusted], by simp [adjusted]⟩,
    ?_, ?_, ?_, ?_, ?_, ?_, by decide⟩
  · unfold signed_char; omega
  · unfold signed_char; omega
  · unfold signed_char; omega
  · unfold signed_char; omega
  · intro h; unfold signed_char clamp_signed_char; omega
  · intro h; unfold signed_char clamp_signed_char; omega

/-- Instance of C11 (amended): `adjust_hands(5, 200, -300)` after showing 10:30. -/
theorem adjust_hands_offsets_converted_witness :
    ((0 : Int) ≤ 5 ∧ (5 : Int) ≤ 23)
    ∧ ∃ hand : Fin 3, ∃ s1 w, ((hand.val : Nat) : Int) = 5 % 3
      ∧ adjust_hands sample_decls bus_ok sample_shown 5 200 (-300) = some s1
      ∧ new_writes sample_shown s1 = [w]
      ∧ (w.payload.clocks hand).adjust_h = signed_char 200
      ∧ (w.payload.clocks hand).adjust_m = signed_char (-300) :=
  ⟨by decide,
   (adjust_hands_offsets_converted sample_decls bus_ok sample_shown 5 200 (-300)
     (by decide)).1⟩

/-- C12 on the code: `adjust_hands` has no range check.  With `clock_index = 24` its
first statement reads `_last_state[8]`, one past the 8-entry cache; with
`clock_index = -1` it reads `_last_state[0]` and then writes `tmp.clocks[-1]`.
Both are out-of-bounds accesses, so the call is not the no-op that the guarded
`set_clock_time(100, 0)` is. -/
theorem adjust_hands_out_of_range :
    (Int.tdiv 24 3 = 8 ∧ index? 8 (Int.tdiv 24 3) = none
      ∧ adjust_hands sample_decls bus_ok sample_shown 24 0 0 = none)
    ∧ (Int.tdiv (-1) 3 = 0 ∧ Int.tmod (-1) 3 = -1 ∧ index? 3 (Int.tmod (-1) 3) = none
      ∧ adjust_hands sample_decls bus_ok sample_shown (-1) 0 0 = none)
    ∧ adjust_hands sample_decls bus_ok sample_shown 24 0 0 ≠ some sample_shown
    ∧ set_clock_time sample_decls bus_ok sample_shown 100 0 = some sample_shown := by
  refine ⟨⟨by decide, by decide, rfl⟩, ⟨by decide, by decide, by decide, rfl⟩, ?_, rfl⟩
  intro h
  have e : adjust_hands sample_decls bus_ok sample_shown 24 0 0 = none := rfl
  rw [e] at h
  exact Option.noConfusion h

/-- Every out-of-range hand index makes `adjust_hands` index an array out of
bounds. -/
theorem adjust_hands_unguarded (D : Decls) (bus : Nat → Nat) (s : ClockManager)
    (k dh dm : Int) (hk : k < 0 ∨ k > 23) : adjust_hands D bus s k dh dm = none := by
  unfold adjust_hands
  by_cases h8 : 0 ≤ k.tdiv 3 ∧ k.tdiv 3 < 8
  · obtain ⟨slot, es, -⟩ := index?_of_range (n := 8) (i := k.tdiv 3) (by simpa using h8)
    have h3 : index? 3 (k.tmod 3) = none := by
      rw [index?_eq_none]
      intro h3
      have := Int.tmod_add_tdiv k 3
      omega
    simp only [es, h3]
  · have : index? 8 (k.tdiv 3) = none := by
      rw [index?_eq_none]
      simpa using h8
    simp only [this]

/-! ## Encoder and full render -/

/-- The display rendered for a time does not depend on the state. -/
theorem get_clock_state_from_time_fst (D : Decls) (s t : ClockManager) (h m : Int) :
    (get_clock_state_from_time D s h m).map Prod.fst
      = (get_clock_state_from_time D t h m).map Prod.fst := by
  unfold get_clock_state_from_time
  dsimp only
  split <;> simp_all

/-- C13. Full render erases manual adjust: for an in-range time and any two
starting states with the same profile and counter (whatever their caches and bus
logs hold, for instance after `adjust_hands`), `set_clock_time` transmits the same
8 HandPairs and leaves the same 8 cache entries; every hand transmitted and every
hand in the resulting cache has `adjust_h = adjust_m = 0` and both modes equal to the
profile direction-mode. -/
theorem full_render_erases_adjust (D : Decls) (bus1 bus2 : Nat → Nat) (s t : ClockManager)
    (h m : Int) (hh : 0 ≤ h ∧ h ≤ 99) (hm : 0 ≤ m ∧ m ≤ 99)
    (hspeed : s._speed = t._speed) (haccel : s._acceleration = t._acceleration)
    (hdir : s._direction = t._direction) (hcount : s._counter = t._counter) :
    ∃ s1 t1, set_clock_time D bus1 s h m = some s1 ∧ set_clock_time D bus2 t h m = some t1
      ∧ new_writes s s1 = new_writes t t1
      ∧ s1._last_state = t1._last_state
      ∧ (∀ w ∈ new_writes s s1, ∀ i : Fin 3,
          (w.payload.clocks i).adjust_h = 0 ∧ (w.payload.clocks i).adjust_m = 0
          ∧ (w.payload.clocks i).mode_h = s._direction
          ∧ (w.payload.clocks i).mode_m = s._direction)
      ∧ (∀ j : Fin 8, ∀ i : Fin 3,
          ((s1._last_state j).clocks i).adjust_h = 0
          ∧ ((s1._last_state j).clocks i).adjust_m = 0
          ∧ ((s1._last_state j).clocks i).mode_h = s._direction
          ∧ ((s1._last_state j).clocks i).mode_m = s._direction) := by
  obtain ⟨c, s0, s1, e0, e1, -, w1, -, -, -, -, l1⟩ := set_clock_time_spec D bus1 s h m hh hm
  obtain ⟨c', t0, t1, f0, f1, -, w2, -, -, -, -, l2⟩ := set_clock_time_spec D bus2 t h m hh hm
  have hc : c = c' := by
    have := get_clock_state_from_time_fst D s t h m
    rw [e0, f0] at this
    simpa using this
  subst hc
  rw [← hspeed, ← haccel, ← hdir, ← hcount] at w2 l2
  refine ⟨s1, t1, e1, f1, ?_, ?_, ?_, ?_⟩
  · rw [new_writes_eq w1, new_writes_eq w2]
  · funext j
    rw [l1, l2]
  · intro w hw i
    rw [new_writes_eq w1] at hw
    unfold full_update_writes at hw
    rw [List.mem_map] at hw
    obtain ⟨j, -, rfl⟩ := hw
    exact ⟨rfl, rfl, rfl, rfl⟩
  · intro j i
    rw [l1]
    exact ⟨rfl, rfl, rfl, rfl⟩

/-- Instance of C13: showing 8:00 after `adjust_hands(3, 2, -1)`, compared with
showing 8:00 from a state with the same profile and counter and an empty cache. -/
theorem full_render_erases_adjust_witness :
    ((0 : Int) ≤ 8 ∧ (8 : Int) ≤ 99) ∧ ((0 : Int) ≤ 0 ∧ (0 : Int) ≤ 99)
    ∧ sample_adjusted._speed = sample_blank._speed
    ∧ sample_adjusted._acceleration = sample_blank._acceleration
    ∧ sample_adjusted._direction = sample_blank._direction
    ∧ sample_adjusted._counter = sample_blank._counter
    ∧ ∃ s1 t1, set_clock_time sample_decls bus_ok sample_adjusted 8 0 = some s1
      ∧ set_clock_time sample_decls bus_nack sample_blank 8 0 = some t1
      ∧ new_writes sample_adjusted s1 = new_writes sample_blank t1
      ∧ s1._last_state = t1._last_state
      ∧ (∀ w ∈ new_writes sample_adjusted s1, ∀ i : Fin 3,
          (w.payload.clocks i).adjust_h = 0 ∧ (w.payload.clocks i).adjust_m = 0
          ∧ (w.payload.clocks i).mode_h = sample_adjusted._direction
          ∧ (w.payload.clocks i).mode_m = sample_adjusted._direction)
      ∧ (∀ j : Fin 8, ∀ i : Fin 3,
          ((s1._last_state j).clocks i).adjust_h = 0
          ∧ ((s1._last_state j).clocks i).adjust_m = 0
          ∧ ((s1._last_state j).clocks i).mode_h = sample_adjusted._direction
          ∧ ((s1._last_state j).clocks i).mode_m = sample_adjusted._direction) :=
  ⟨by decide, by decide, rfl, rfl, rfl, rfl,
   full_render_erases_adjust sample_decls bus_ok bus_nack sample_adjusted sample_blank 8 0
     (by decide) (by decide) rfl rfl rfl rfl⟩

/-- C18. Encoder expansion: `get_full_half_digit` returns a HandPair whose hand `i`
has the angles of the template's hand `i`, both speeds equal to the profile speed,
both accelerations equal to the profile acceleration, both modes equal to the
profile direction, both adjust offsets 0 and marker `i` equal to the counter.  The
function only returns this value; profile, counter and cache are read, not
written. -/
theorem get_full_half_digit_expansion (s : ClockManager) (lite_digit : t_half_digitl)
    (i : Fin 3) :
    ((get_full_half_digit s lite_digit).clocks i).angle_h = (lite_digit.clocks i).angle_h
    ∧ ((get_full_half_digit s lite_digit).clocks i).angle_m = (lite_digit.clocks i).angle_m
    ∧ ((get_full_half_digit s lite_digit).clocks i).speed_h = s._speed
    ∧ ((get_full_half_digit s lite_digit).clocks i).speed_m = s._speed
    ∧ ((get_full_half_digit s lite_digit).clocks i).accel_h = s._acceleration
    ∧ ((get_full_half_digit s lite_digit).clocks i).accel_m = s._acceleration
    ∧ ((get_full_half_digit s lite_digit).clocks i).mode_h = s._direction
    ∧ ((get_full_half_digit s lite_digit).clocks i).mode_m = s._direction
    ∧ ((get_full_half_digit s lite_digit).clocks i).adjust_h = 0
    ∧ ((get_full_half_digit s lite_digit).clocks i).adjust_m = 0
    ∧ (get_full_half_digit s lite_digit).change_counter i = s._counter := by
  rw [get_full_half_digit_eq]
  exact ⟨rfl, rfl, rfl, rfl, rfl, rfl, rfl, rfl, rfl, rfl, rfl⟩

/-! ## Markers of a transmitted HandPair -/

/-- C19, as the claim states it, fails: `adjust_hands(3, 2, -1)` after showing 10:30
(counter 2 at the call) transmits a HandPair whose markers are 2, 1, 1: only the
targeted hand carries the counter, its siblings keep the marker 1 of the cache. -/
theorem adjust_hands_marker_counterexample :
    sample_shown._counter = 2
    ∧ ∃ s1 w, adjust_hands sample_decls bus_ok sample_shown 3 2 (-1) = some s1
      ∧ new_writes sample_shown s1 = [w]
      ∧ w.payload.change_counter 0 = 2
      ∧ w.payload.change_counter 1 = 1
      ∧ w.payload.change_counter 2 = 1
      ∧ w.payload.change_counter 1 ≠ w.payload.change_counter 0
      ∧ w.payload.change_counter 1 ≠ sample_shown._counter :=
  ⟨rfl, _, _, rfl, rfl, rfl, rfl, rfl, by decide, by decide⟩

/-- C19, amended. Markers of a transmitted HandPair: every HandPair handed to the
bus by `set_clock`, `set_digit` or `set_half_digit` carries the same marker on all
3 hands, the freshness counter at the time of the call; the HandPair handed to the
bus by `adjust_hands(k, ..)` carries the counter at the time of the call on hand
`k % 3` and, on the two other hands, the markers of cache entry `k / 3`. -/
theorem transmitted_markers (D : Decls) (bus : Nat → Nat) (s s1 : ClockManager) :
    (∀ c, set_clock bus s c = some s1 →
        ∀ w ∈ new_writes s s1, ∀ i : Fin 3, w.payload.change_counter i = s._counter)
    ∧ (∀ index d, set_digit bus s index d = some s1 →
        ∀ w ∈ new_writes s s1, ∀ i : Fin 3, w.payload.change_counter i = s._counter)
    ∧ (∀ index half, set_half_digit bus s index half = some s1 →
        ∀ w ∈ new_writes s s1, ∀ i : Fin 3, w.payload.change_counter i = s._counter)
    ∧ (∀ k dh dm, adjust_hands D bus s k dh dm = some s1 →
        ∃ slot : Fin 8, ∃ hand : Fin 3,
          index? 8 (k.tdiv 3) = some slot ∧ index? 3 (k.tmod 3) = some hand
          ∧ ∀ w ∈ new_writes s s1,
              w.payload.change_counter hand = s._counter
              ∧ ∀ i : Fin 3, i ≠ hand →
                  w.payload.change_counter i = (s._last_state slot).change_counter i) := by
  refine ⟨?_, ?_, ?_, ?_⟩
  · intro c h w hw i
    obtain ⟨s2, e, hwire, -⟩ := set_clock_spec bus s c
    rw [e, Option.some.injEq] at h
    subst h
    rw [new_writes_eq hwire] at hw
    exact full_update_writes_marker _ _ _ _ _ w hw i
  · intro index d h w hw i
    simp only [set_digit, Option.map_eq_some'] at h
    obtain ⟨s0, e, rfl⟩ := h
    obtain ⟨hwire, -⟩ := send_digit_effect bus s s0 index d e
    rw [← increment_counter_wire s0] at hwire
    rw [new_writes_eq hwire] at hw
    simp only [List.mem_cons, List.mem_singleton, List.mem_nil_iff, or_false] at hw
    rcases hw with rfl | rfl <;> rfl
  · intro index half h w hw i
    obtain ⟨hwire, -⟩ := set_half_digit_effect bus s s1 index half h
    rw [new_writes_eq hwire] at hw
    simp only [List.mem_singleton] at hw
    subst hw
    rfl
  · intro k dh dm h
    obtain ⟨slot, hand, es, eh, hwire, -⟩ := adjust_hands_effect D bus s s1 k dh dm h
    refine ⟨slot, hand, es, eh, ?_⟩
    intro w hw
    rw [new_writes_eq hwire] at hw
    simp only [List.mem_singleton] at hw
    subst hw
    refine ⟨by simp [adjusted], ?_⟩
    intro i hi
    simp [adjusted, Function.update_noteq hi]

/-- Instance of C19 (amended): a full display update from the initial state, then
`adjust_hands(3, 2, -1)`. -/
theorem transmitted_markers_witness :
    set_half_digit bus_ok (ClockManager.init sample_decls) 0 ((sample_digit 4).halfs 0)
        = some ((set_half_digit bus_ok (ClockManager.init sample_decls) 0
            ((sample_digit 4).halfs 0)).getD (ClockManager.init sample_decls))
    ∧ adjust_hands sample_decls bus_ok sample_shown 3 2 (-1) = some sample_adjusted
    ∧ (∀ w ∈ new_writes (ClockManager.init sample_decls)
          ((set_half_digit bus_ok (ClockManager.init sample_decls) 0
            ((sample_digit 4).halfs 0)).getD (ClockManager.init sample_decls)),
        ∀ i : Fin 3, w.payload.change_counter i = (ClockManager.init sample_decls)._counter)
    ∧ ∃ slot : Fin 8, ∃ hand : Fin 3,
        index? 8 (Int.tdiv 3 3) = some slot ∧ index? 3 (Int.tmod 3 3) = some hand
        ∧ ∀ w ∈ new_writes sample_shown sample_adjusted,
            w.payload.change_counter hand = sample_shown._counter
            ∧ ∀ i : Fin 3, i ≠ hand →
                w.payload.change_counter i = (sample_shown._last_state slot).change_counter i :=
  ⟨rfl, rfl,
   (transmitted_markers sample_decls bus_ok (ClockManager.init sample_decls)
      ((set_half_digit bus_ok (ClockManager.init sample_decls) 0
        ((sample_digit 4).halfs 0)).getD (ClockManager.init sample_decls))).2.2.1 0
      ((sample_digit 4).halfs 0) rfl,
   (transmitted_markers sample_decls bus_ok sample_shown sample_adjusted).2.2.2 3 2 (-1) rfl⟩

/-! ## Time synchronisation: state machine -/

/-- The effect of `tick_NTP` in IDLE when no sync is due: nothing. -/
theorem tick_NTP_idle_not_due (time_t : Int → Int) (s : Ntp) (millis : Nat)
    (dns : Option Nat) (hidle : s._ntp_state = 0) (hlast : s._ntp_last_sync_ms ≠ 0)
    (hnot : sub_u32 (millis % 2 ^ 32) s._ntp_last_sync_ms < NTP_SYNC_INTERVAL_MS) :
    tick_NTP time_t s millis dns = s := by
  have hb : (decide (s._ntp_last_sync_ms = 0)
      || decide (sub_u32 (millis % 2 ^ 32) s._ntp_last_sync_ms ≥ NTP_SYNC_INTERVAL_MS))
        = false := by
    rw [Bool.or_eq_false_iff]
    exact ⟨decide_eq_false hlast, decide_eq_false (Nat.not_le.mpr hnot)⟩
  unfold tick_NTP
  rw [if_pos hidle]
  dsimp only
  rw [hb]
  rfl

/-- The effect of `tick_NTP` in IDLE when a sync is due and the name does not
resolve. -/
theorem tick_NTP_idle_dns_failed (time_t : Int → Int) (s : Ntp) (millis : Nat)
    (hidle : s._ntp_state = 0)
    (hdue : s._ntp_last_sync_ms = 0
      ∨ sub_u32 (millis % 2 ^ 32) s._ntp_last_sync_ms ≥ NTP_SYNC_INTERVAL_MS) :
    (tick_NTP time_t s millis none)._ntp_state = 0
      ∧ (tick_NTP time_t s millis none)._ntp_last_sync_ms = millis % 2 ^ 32
      ∧ (tick_NTP time_t s millis none).sent = s.sent
      ∧ (tick_NTP time_t s millis none).lookups = s.lookups + 1
      ∧ (tick_NTP time_t s millis none).sysTime = s.sysTime := by
  have hb : (decide (s._ntp_last_sync_ms = 0)
      || decide (sub_u32 (millis % 2 ^ 32) s._ntp_last_sync_ms ≥ NTP_SYNC_INTERVAL_MS))
        = true := by
    rw [Bool.or_eq_true]
    rcases hdue with h | h
    · exact Or.inl (decide_eq_true h)
    · exact Or.inr (decide_eq_true h)
  unfold tick_NTP
  rw [if_pos hidle]
  dsimp only
  rw [hb]
  exact ⟨hidle, rfl, rfl, rfl, rfl⟩

/-- The effect of `tick_NTP` in IDLE when a sync is due and the name resolves. -/
theorem tick_NTP_idle_request (time_t : Int → Int) (s : Ntp) (millis ip : Nat)
    (hidle : s._ntp_state = 0)
    (hdue : s._ntp_last_sync_ms = 0
      ∨ sub_u32 (millis % 2 ^ 32) s._ntp_last_sync_ms ≥ NTP_SYNC_INTERVAL_MS) :
    (tick_NTP time_t s millis (some ip))._ntp_state = 1
      ∧ (tick_NTP time_t s millis (some ip))._ntp_send_time = millis % 2 ^ 32
      ∧ (tick_NTP time_t s millis (some ip))._ntp_last_sync_ms = s._ntp_last_sync_ms
      ∧ (tick_NTP time_t s millis (some ip)).sent
          = s.sent ++ [{ ip := ip, port := 123, payload := request_bytes }]
      ∧ (tick_NTP time_t s millis (some ip)).lookups = s.lookups + 1
      ∧ (tick_NTP time_t s millis (some ip)).sysTime = s.sysTime
      ∧ (tick_NTP time_t s millis (some ip))._time_zone = s._time_zone
      ∧ (tick_NTP time_t s millis (some ip)).inbox = discard_stale s.inbox := by
  have hb : (decide (s._ntp_last_sync_ms = 0)
      || decide (sub_u32 (millis % 2 ^ 32) s._ntp_last_sync_ms ≥ NTP_SYNC_INTERVAL_MS))
        = true := by
    rw [Bool.or_eq_true]
    rcases hdue with h | h
    · exact Or.inl (decide_eq_true h)
    · exact Or.inr (decide_eq_true h)
  unfold tick_NTP
  rw [if_pos hidle]
  dsimp only
  rw [hb]
  refine ⟨rfl, rfl, rfl, ?_, rfl, rfl, rfl, rfl⟩
  show s.sent ++ [_] = s.sent ++ [_]
  congr 2

/-- The effect of `tick_NTP` in WAITING_RESPONSE when `Udp.parsePacket()` returns
less than 48. -/
theorem tick_NTP_waiting (time_t : Int → Int) (s : Ntp) (millis : Nat) (dns : Option Nat)
    (hstate : s._ntp_state ≠ 0) (hsize : (parsePacket s).1 < 48) :
    (sub_u32 (millis % 2 ^ 32) s._ntp_send_time > 2000 →
        (tick_NTP time_t s millis dns)._ntp_state = 0
        ∧ (tick_NTP time_t s millis dns)._ntp_last_sync_ms = millis % 2 ^ 32)
    ∧ (sub_u32 (millis % 2 ^ 32) s._ntp_send_time ≤ 2000 →
        (tick_NTP time_t s millis dns)._ntp_state = s._ntp_state
        ∧ (tick_NTP time_t s millis dns)._ntp_send_time = s._ntp_send_time
        ∧ (tick_NTP time_t s millis dns)._ntp_last_sync_ms = s._ntp_last_sync_ms)
    ∧ (tick_NTP time_t s millis dns).sysTime = s.sysTime
    ∧ (tick_NTP time_t s millis dns).lookups = s.lookups
    ∧ (tick_NTP time_t s millis dns).sent = s.sent
    ∧ (tick_NTP time_t s millis dns)._time_zone = s._time_zone
    ∧ (tick_NTP time_t s millis dns).inbox = s.inbox.tail := by
  have hp : (parsePacket s).2.2._ntp_send_time = s._ntp_send_time
      ∧ (parsePacket s).2.2._ntp_state = s._ntp_state
      ∧ (parsePacket s).2.2._ntp_last_sync_ms = s._ntp_last_sync_ms
      ∧ (parsePacket s).2.2.sysTime = s.sysTime ∧ (parsePacket s).2.2.lookups = s.lookups
      ∧ (parsePacket s).2.2.sent = s.sent ∧ (parsePacket s).2.2._time_zone = s._time_zone
      ∧ (parsePacket s).2.2.inbox = s.inbox.tail := by
    unfold parsePacket
    split <;> simp_all
  obtain ⟨p1, p2, p3, p4, p5, p6, p7, p8⟩ := hp
  unfold tick_NTP
  simp only [if_neg hstate, NTP_PACKET_SIZE, NTP_RESPONSE_TIMEOUT_MS]
  rw [if_neg (by omega), p1]
  by_cases ht : sub_u32 (millis % 2 ^ 32) s._ntp_send_time > 2000
  · rw [if_pos ht]
    exact ⟨fun _ => ⟨rfl, rfl⟩, fun h => absurd ht (by omega), p4, p5, p6, p7, p8⟩
  · rw [if_neg ht]
    exact ⟨fun h => absurd h ht, fun _ => ⟨p2, p1, p3⟩, p4, p5, p6, p7, p8⟩

/-! ## Time synchronisation: back-off, timeout, resync, request layout -/

/-- Back-off after a failed resolution at a non-zero `now_ms`: the tick sends
nothing, stays IDLE with `last_sync_ms = now_ms`, and every tick in the following
30 minutes leaves the state as it is. -/
theorem tick_NTP_backoff (time_t : Int → Int) (s : Ntp) (millis : Nat)
    (hidle : s._ntp_state = 0)
    (hdue : s._ntp_last_sync_ms = 0
      ∨ sub_u32 (millis % 2 ^ 32) s._ntp_last_sync_ms ≥ NTP_SYNC_INTERVAL_MS)
    (hnz : millis % 2 ^ 32 ≠ 0) :
    (tick_NTP time_t s millis none)._ntp_state = 0
      ∧ (tick_NTP time_t s millis none)._ntp_last_sync_ms = millis % 2 ^ 32
      ∧ (tick_NTP time_t s millis none).sent = s.sent
      ∧ ∀ (t : Nat) (dns : Option Nat),
          sub_u32 (t % 2 ^ 32) (millis % 2 ^ 32) < 1800000 →
          tick_NTP time_t (tick_NTP time_t s millis none) t dns
            = tick_NTP time_t s millis none := by
  obtain ⟨h1, h2, h3, -⟩ := tick_NTP_idle_dns_failed time_t s millis hidle hdue
  refine ⟨h1, h2, h3, ?_⟩
  intro t dns ht
  apply tick_NTP_idle_not_due time_t _ t dns h1
  · rw [h2]; exact hnz
  · rw [h2]; exact ht

/-- C14 on the code: back-off is lost when the failed attempt happens at
`millis() = 0`.  From an idle state last synchronised at `2^32 - 1800000`, no sync
is due at `millis() = 4294967295`; at the next millisecond, `millis() = 0`, the sync
is due, the name does not resolve, and the code stores `last_sync_ms = 0`, which is
also its "never synchronised" marker: the tick 1 ms later resolves again and, the
name resolving, sends a request. -/
theorem tick_NTP_backoff_lost_at_zero :
    sample_idle_late._ntp_state = 0
    ∧ tick_NTP time_t_unsigned32 sample_idle_late 4294967295 none = sample_idle_late
    ∧ sub_u32 0 sample_idle_late._ntp_last_sync_ms ≥ NTP_SYNC_INTERVAL_MS
    ∧ (tick_NTP time_t_unsigned32 sample_idle_late 0 none)._ntp_state = 0
    ∧ (tick_NTP time_t_unsigned32 sample_idle_late 0 none)._ntp_last_sync_ms = 0
    ∧ (tick_NTP time_t_unsigned32 sample_idle_late 0 none).sent = []
    ∧ (tick_NTP time_t_unsigned32 sample_idle_late 0 none).lookups = 1
    ∧ sub_u32 1 0 < 1800000
    ∧ (tick_NTP time_t_unsigned32 (tick_NTP time_t_unsigned32 sample_idle_late 0 none) 1
        (some 7)).lookups = 2
    ∧ (tick_NTP time_t_unsigned32 (tick_NTP time_t_unsigned32 sample_idle_late 0 none) 1
        (some 7)).sent = [{ ip := 7, port := 123, payload := request_bytes }]
    ∧ (tick_NTP time_t_unsigned32 (tick_NTP time_t_unsigned32 sample_idle_late 0 none) 1
        (some 7))._ntp_state = 1 := by
  refine ⟨rfl, ?_, by decide, rfl, rfl, rfl, rfl, by decide, rfl, ?_, rfl⟩
  · exact tick_NTP_idle_not_due time_t_unsigned32 sample_idle_late 4294967295 none rfl
      (by decide) (by decide)
  · exact (tick_NTP_idle_request time_t_unsigned32
      (tick_NTP time_t_unsigned32 sample_idle_late 0 none) 1 7 rfl (Or.inl rfl)).2.2.2.1

/-- With nothing waiting in the socket `Udp.parsePacket()` returns 0. -/
theorem parsePacket_empty (s : Ntp) (h : s.inbox = []) : (parsePacket s).1 = 0 := by
  unfold parsePacket
  rw [h]

/-- While no response arrives and the timeout has not passed, a run of ticks keeps
the engine waiting and neither resolves nor sends. -/
theorem ticks_waiting (time_t : Int → Int) (dns : Option Nat) (waits : List Nat) :
    ∀ s : Ntp, s._ntp_state ≠ 0 → s.inbox = [] →
      (∀ t ∈ waits, sub_u32 (t % 2 ^ 32) s._ntp_send_time ≤ 2000) →
      (ticks time_t dns s waits)._ntp_state = s._ntp_state
      ∧ (ticks time_t dns s waits)._ntp_send_time = s._ntp_send_time
      ∧ (ticks time_t dns s waits)._ntp_last_sync_ms = s._ntp_last_sync_ms
      ∧ (ticks time_t dns s waits).sysTime = s.sysTime
      ∧ (ticks time_t dns s waits).lookups = s.lookups
      ∧ (ticks time_t dns s waits).sent = s.sent
      ∧ (ticks time_t dns s waits).inbox = [] := by
  induction waits with
  | nil => intro s _ hin _; exact ⟨rfl, rfl, rfl, rfl, rfl, rfl, hin⟩
  | cons t ts ih =>
    intro s hstate hin hw
    have hsize : (parsePacket s).1 < 48 := by
      rw [parsePacket_empty s hin]; decide
    obtain ⟨-, hkeep, h4, h5, h6, -, h8⟩ := tick_NTP_waiting time_t s t dns hstate hsize
    obtain ⟨k1, k2, k3⟩ := hkeep (hw t (List.mem_cons_self t ts))
    rw [hin] at h8
    have := ih (tick_NTP time_t s t dns) (by rw [k1]; exact hstate) h8
      (fun u hu => by rw [k2]; exact hw u (List.mem_cons_of_mem t hu))
    obtain ⟨i1, i2, i3, i4, i5, i6, i7⟩ := this
    show (ticks time_t dns (tick_NTP time_t s t dns) ts)._ntp_state = _ ∧ _
    exact ⟨i1.trans k1, i2.trans k2, i3.trans k3, i4.trans h4, i5.trans h5, i6.trans h6, i7⟩

/-- C15. Response timeout: when `tick_NTP` runs in WAITING_RESPONSE and
`Udp.parsePacket()` finds no datagram of at least 48 bytes, then if
`(now_ms - send_time) mod 2^32 > 2000` the state becomes IDLE with
`last_sync_ms = now_ms`, and otherwise state, `send_time` and `last_sync_ms` are
unchanged; in both cases the wall-clock time, the number of name resolutions and
the datagrams sent are unchanged.  Consequently, with a transport that resolves
but never responds, a due tick at `t0` followed by ticks within 2000 ms of `t0` and
then a tick more than 2000 ms after `t0` sends exactly one request, resolves exactly
once, waits throughout and is back in IDLE with `last_sync_ms` set at that last
tick. -/
theorem tick_NTP_response_timeout (time_t : Int → Int) :
    (∀ (s : Ntp) (millis : Nat) (dns : Option Nat),
        s._ntp_state ≠ 0 → (parsePacket s).1 < 48 →
        (sub_u32 (millis % 2 ^ 32) s._ntp_send_time > 2000 →
            (tick_NTP time_t s millis dns)._ntp_state = 0
            ∧ (tick_NTP time_t s millis dns)._ntp_last_sync_ms = millis % 2 ^ 32)
        ∧ (sub_u32 (millis % 2 ^ 32) s._ntp_send_time ≤ 2000 →
            (tick_NTP time_t s millis dns)._ntp_state = s._ntp_state
            ∧ (tick_NTP time_t s millis dns)._ntp_send_time = s._ntp_send_time
            ∧ (tick_NTP time_t s millis dns)._ntp_last_sync_ms = s._ntp_last_sync_ms)
        ∧ (tick_NTP time_t s millis dns).sysTime = s.sysTime
        ∧ (tick_NTP time_t s millis dns).lookups = s.lookups
        ∧ (tick_NTP time_t s millis dns).sent = s.sent)
    ∧ (∀ (s : Ntp) (t0 ip : Nat) (waits : List Nat) (tlast : Nat),
        s._ntp_state = 0 → s.inbox = [] →
        (s._ntp_last_sync_ms = 0
          ∨ sub_u32 (t0 % 2 ^ 32) s._ntp_last_sync_ms ≥ NTP_SYNC_INTERVAL_MS) →
        (∀ t ∈ waits, sub_u32 (t % 2 ^ 32) (t0 % 2 ^ 32) ≤ 2000) →
        sub_u32 (tlast % 2 ^ 32) (t0 % 2 ^ 32) > 2000 →
        (tick_NTP time_t s t0 (some ip))._ntp_state = 1
        ∧ (ticks time_t (some ip) (tick_NTP time_t s t0 (some ip)) waits)._ntp_state = 1
        ∧ (ticks time_t (some ip) s (t0 :: waits ++ [tlast]))._ntp_state = 0
        ∧ (ticks time_t (some ip) s (t0 :: waits ++ [tlast]))._ntp_last_sync_ms
            = tlast % 2 ^ 32
        ∧ (ticks time_t (some ip) s (t0 :: waits ++ [tlast])).sent
            = s.sent ++ [{ ip := ip, port := 123, payload := request_bytes }]
        ∧ (ticks time_t (some ip) s (t0 :: waits ++ [tlast])).lookups = s.lookups + 1
        ∧ (ticks time_t (some ip) s (t0 :: waits ++ [tlast])).sysTime = s.sysTime) := by
  constructor
  · intro s millis dns hstate hsize
    obtain ⟨a, b, c, d, e, -⟩ := tick_NTP_waiting time_t s millis dns hstate hsize
    exact ⟨a, b, c, d, e⟩
  · intro s t0 ip waits tlast hidle hin hdue hw hlast
    obtain ⟨r1, r2, r3, r4, r5, r6, -, r8⟩ := tick_NTP_idle_request time_t s t0 ip hidle hdue
    rw [hin] at r8
    have r8' : (tick_NTP time_t s t0 (some ip)).inbox = [] := r8
    obtain ⟨w1, w2, w3, w4, w5, w6, w7⟩ :=
      ticks_waiting time_t (some ip) waits (tick_NTP time_t s t0 (some ip))
        (by rw [r1]; decide) r8' (fun t ht => by rw [r2]; exact hw t ht)
    have hsplit : ∀ (l : List Nat) (u : Ntp) (x : Nat),
        ticks time_t (some ip) u (l ++ [x])
          = tick_NTP time_t (ticks time_t (some ip) u l) x (some ip) := by
      intro l
      induction l with
      | nil => intro u x; rfl
      | cons a l ih => intro u x; exact ih (tick_NTP time_t u a (some ip)) x
    have hrun : ticks time_t (some ip) s (t0 :: waits ++ [tlast])
        = tick_NTP time_t (ticks time_t (some ip) (tick_NTP time_t s t0 (some ip)) waits)
            tlast (some ip) := by
      show ticks time_t (some ip) (tick_NTP time_t s t0 (some ip)) (waits ++ [tlast]) = _
      exact hsplit waits _ tlast
    have hsize : (parsePacket
        (ticks time_t (some ip) (tick_NTP time_t s t0 (some ip)) waits)).1 < 48 := by
      rw [parsePacket_empty _ w7]; decide
    obtain ⟨f1, -, f3, f4, f5, -⟩ :=
      tick_NTP_waiting time_t (ticks time_t (some ip) (tick_NTP time_t s t0 (some ip)) waits)
        tlast (some ip) (by rw [w1, r1]; decide) hsize
    obtain ⟨g1, g2⟩ := f1 (by rw [w2, r2]; exact hlast)
    rw [hrun]
    exact ⟨r1, w1.trans r1, g1, g2, f5.trans (w6.trans r4), f4.trans (w5.trans r5),
      f3.trans (w4.trans r6)⟩

/-- Instance of C15: from the initial state a due tick at 5000 ms, waiting ticks at
5500 and 6900 ms, and the tick at 7001 ms that times out. -/
theorem tick_NTP_response_timeout_witness :
    Ntp.init._ntp_state = 0 ∧ Ntp.init.inbox = []
    ∧ (Ntp.init._ntp_last_sync_ms = 0
        ∨ sub_u32 (5000 % 2 ^ 32) Ntp.init._ntp_last_sync_ms ≥ NTP_SYNC_INTERVAL_MS)
    ∧ (∀ t ∈ [5500, 6900], sub_u32 (t % 2 ^ 32) (5000 % 2 ^ 32) ≤ 2000)
    ∧ sub_u32 (7001 % 2 ^ 32) (5000 % 2 ^ 32) > 2000
    ∧ ((tick_NTP time_t_unsigned32 Ntp.init 5000 (some 7))._ntp_state = 1
      ∧ (ticks time_t_unsigned32 (some 7) (tick_NTP time_t_unsigned32 Ntp.init 5000 (some 7))
          [5500, 6900])._ntp_state = 1
      ∧ (ticks time_t_unsigned32 (some 7) Ntp.init (5000 :: [5500, 6900] ++ [7001]))._ntp_state
          = 0
      ∧ (ticks time_t_unsigned32 (some 7) Ntp.init
          (5000 :: [5500, 6900] ++ [7001]))._ntp_last_sync_ms = 7001 % 2 ^ 32
      ∧ (ticks time_t_unsigned32 (some 7) Ntp.init (5000 :: [5500, 6900] ++ [7001])).sent
          = Ntp.init.sent ++ [{ ip := 7, port := 123, payload := request_bytes }]
      ∧ (ticks time_t_unsigned32 (some 7) Ntp.init (5000 :: [5500, 6900] ++ [7001])).lookups
          = Ntp.init.lookups + 1
      ∧ (ticks time_t_unsigned32 (some 7) Ntp.init (5000 :: [5500, 6900] ++ [7001])).sysTime
          = Ntp.init.sysTime) :=
  ⟨rfl, rfl, Or.inl rfl, by decide, by decide,
   (tick_NTP_response_timeout time_t_unsigned32).2 Ntp.init 5000 7 [5500, 6900] 7001 rfl rfl
     (Or.inl rfl) (by decide) (by decide)⟩

/-- C16. The function `request_ntp_sync` forces a fresh cycle: from every sync
state it leaves the engine IDLE with timezone, wall-clock time, lookups and sent
datagrams untouched, and the next `tick_NTP`, at any `now_ms`, resolves the server
again; when the name resolves the tick sends exactly one request, sets
`send_time = now_ms` and enters WAITING_RESPONSE, and when it does not the tick
sends nothing. -/
theorem request_ntp_sync_forces_cycle (time_t : Int → Int) (s : Ntp) (millis ip : Nat) :
    (request_ntp_sync s)._ntp_state = 0
    ∧ (request_ntp_sync s)._time_zone = s._time_zone
    ∧ (request_ntp_sync s).sysTime = s.sysTime
    ∧ (request_ntp_sync s).sent = s.sent
    ∧ (request_ntp_sync s).lookups = s.lookups
    ∧ (tick_NTP time_t (request_ntp_sync s) millis (some ip)).lookups = s.lookups + 1
    ∧ (tick_NTP time_t (request_ntp_sync s) millis (some ip)).sent
        = s.sent ++ [{ ip := ip, port := 123, payload := request_bytes }]
    ∧ (tick_NTP time_t (request_ntp_sync s) millis (some ip))._ntp_send_time = millis % 2 ^ 32
    ∧ (tick_NTP time_t (request_ntp_sync s) millis (some ip))._ntp_state = 1
    ∧ (tick_NTP time_t (request_ntp_sync s) millis (some ip))._time_zone = s._time_zone
    ∧ (tick_NTP time_t (request_ntp_sync s) millis (some ip)).sysTime = s.sysTime
    ∧ (tick_NTP time_t (request_ntp_sync s) millis none).lookups = s.lookups + 1
    ∧ (tick_NTP time_t (request_ntp_sync s) millis none).sent = s.sent := by
  obtain ⟨r1, r2, -, r4, r5, r6, r7, -⟩ :=
    tick_NTP_idle_request time_t (request_ntp_sync s) millis ip rfl (Or.inl rfl)
  obtain ⟨-, -, f3, f4, -⟩ :=
    tick_NTP_idle_dns_failed time_t (request_ntp_sync s) millis rfl (Or.inl rfl)
  exact ⟨rfl, rfl, rfl, rfl, rfl, r5, r4, r2, r1, r7, r6, f4, f3⟩

/-- C17, as the claim states it, fails: the request built by `send_NTP_packet` has
the bytes 49, 78, 49, 52 (hexadecimal 31 4E 31 34) at offsets 12..15; bytes 12, 14
and 15 are not hexadecimal 49, 49 and 52. -/
theorem send_NTP_packet_reference_counterexample :
    ∃ d, (send_NTP_packet sample_dirty 7).sent = [d]
      ∧ d.payload[12]? = some 49 ∧ d.payload[13]? = some 78
      ∧ d.payload[14]? = some 49 ∧ d.payload[15]? = some 52
      ∧ d.payload[12]? ≠ some 0x49 ∧ d.payload[14]? ≠ some 0x49
      ∧ d.payload[15]? ≠ some 0x52 :=
  ⟨_, rfl, rfl, rfl, rfl, rfl, by decide, by decide, by decide⟩

/-- C17, amended. Time-request payload layout: the datagram built by
`send_NTP_packet` goes to port 123 and is exactly 48 bytes with byte 0 = 0xE3,
byte 1 = 0, byte 2 = 6, byte 3 = 0xEC, the four reference-identifier bytes at
offsets 12..15 equal to decimal 49, 78, 49, 52 (hexadecimal 31 4E 31 34), and every
other byte equal to 0, whatever the shared packet buffer held before; the buffer
holds the same 48 bytes afterwards. -/
theorem send_NTP_packet_layout (s : Ntp) (address : Nat) :
    (send_NTP_packet s address).sent
        = s.sent ++ [{ ip := address, port := 123, payload := request_bytes }]
    ∧ request_bytes.length = 48
    ∧ request_bytes
        = [0xE3, 0, 6, 0xEC, 0, 0, 0, 0, 0, 0, 0, 0, 0x31, 0x4E, 0x31, 0x34,
           0, 0, 0, 0, 0, 0, 0, 0, 0, 0, 0, 0, 0, 0, 0, 0,
           0, 0, 0, 0, 0, 0, 0, 0, 0, 0, 0, 0, 0, 0, 0, 0]
    ∧ (∀ i : Fin 48, (send_NTP_packet s address).packet_buffer i = request_bytes.getD i.val 0)
    ∧ (∀ i : Nat, i < 48 → i ∉ [0, 2, 3, 12, 13, 14, 15] → request_bytes.getD i 0 = 0) := by
  refine ⟨?_, by decide, by decide, ?_, ?_⟩
  · unfold send_NTP_packet
    show s.sent ++ [_] = s.sent ++ [_]
    congr 2
  · intro i
    unfold send_NTP_packet
    fin_cases i <;> rfl
  · intro i hi
    interval_cases i <;> decide

/-! ## The yielding delay -/

/-- The trace of `_delay` for any number of iterations: every block ends with one
`delay(d)`. -/
theorem total_delay_blocks (d : Int) (l : List Nat) :
    total_delay (l.flatMap fun _ =>
        [DelayEvent.wdtFeed, DelayEvent.update_MDNS, DelayEvent.handle_webclient,
         DelayEvent.delay d])
      = (l.length : Int) * d := by
  induction l with
  | nil => simp [total_delay]
  | cons a l ih =>
    rw [List.flatMap_cons]
    show d + total_delay (l.flatMap fun _ =>
      [DelayEvent.wdtFeed, DelayEvent.update_MDNS, DelayEvent.handle_webclient,
       DelayEvent.delay d]) = _
    rw [ih, List.length_cons]
    push_cast
    ring

/-- The total wait of `_delay(value)` is `(value/100) * (value/100)` for
`value ≥ 0`. -/
theorem delay_total (value : Int) (h : 0 ≤ value) :
    total_delay (_delay value) = (value / 100) * (value / 100) := by
  unfold _delay
  rw [total_delay_blocks, List.length_range, Int.tdiv_eq_ediv h (by decide)]
  have : 0 ≤ value / 100 := Int.ediv_nonneg h (by decide)
  rw [Int.toNat_of_nonneg this]

/-- C20 on the code: `_delay(9000)`, the call made by `set_waves`, runs 90
iterations of feed, MDNS, web client and `delay(90)`, a total wait of 8100 ms
instead of 9000 ms; `_delay(50)` does not wait at all. -/
theorem delay_total_mismatch :
    _delay 9000
        = (List.range 90).flatMap (fun _ =>
            [DelayEvent.wdtFeed, DelayEvent.update_MDNS, DelayEvent.handle_webclient,
             DelayEvent.delay 90])
    ∧ total_delay (_delay 9000) = 8100
    ∧ total_delay (_delay 9000) ≠ 9000
    ∧ _delay 50 = []
    ∧ total_delay (_delay 50) = 0 := by
  have h : total_delay (_delay 9000) = 8100 := by
    rw [delay_total 9000 (by decide)]
    decide
  refine ⟨rfl, h, ?_, by decide, by decide⟩
  rw [h]
  decide

end ClockClock
